import Mathlib

/-!
# rem-community: proxy address codec and SOCKS5 client handshake

A shallow embedding of `x/trojanx/internal/common/common.go` (the `Address`
wire codec) and of `x/proxyclient/socks/client_socks5.go` (the SOCKS5 client:
handshake, command mapping, command replies and `Dial`), together with the
properties of the written specification that were checked against them.

Conventions of the embedding

* a Go `byte` is a `Nat` below 256; byte arithmetic is written with an
  explicit `% 256`;
* a Go `string` and a Go `[]byte` are both `List Nat` (the list of bytes);
* a `net.IP` is a `List Nat`; the `nil` slice is `[]` (every non-nil `net.IP`
  the code handles has 4 or 16 bytes);
* a Go `int` is an `Int`;
* an `io.Reader` over a finite input is the list of bytes not yet read;
* an `io.Writer` / `net.Conn` is a state type with a step function.
-/

namespace Rem

/-! ## Standard library: `net.IP` -/

/-- The type `net.IP`, a byte slice (`nil` is `[]`). -/
abbrev IP := List Nat

/-- The constant `net.IPv4len`. -/
def IPv4len : Nat := 4

/-- The constant `net.IPv6len`. -/
def IPv6len : Nat := 16

/-- The prefix `v4InV6Prefix` of an IPv4-mapped IPv6 address. -/
def v4InV6Prefix : List Nat := [0, 0, 0, 0, 0, 0, 0, 0, 0, 0, 0xff, 0xff]

/-- The helper `isZeros` of package `net`. -/
def isZeros (p : List Nat) : Bool := p.all (fun b => b == 0)

/-- The method `IP.To4`: the 4-byte form of an IPv4 address, `nil` otherwise. -/
def To4 (ip : IP) : IP :=
  if ip.length = IPv4len then ip
  else if ip.length = IPv6len ∧ isZeros (ip.take 10) = true ∧
      ip.getD 10 0 = 0xff ∧ ip.getD 11 0 = 0xff then (ip.take 16).drop 12
  else []

/-- The method `IP.To16`: the 16-byte form of an address, `nil` if the length is wrong. -/
def To16 (ip : IP) : IP :=
  if ip.length = IPv4len then v4InV6Prefix ++ ip
  else if ip.length = IPv6len then ip
  else []

/-! ## Standard library: `net.ParseIP` (through `netip.ParseAddr`) -/

/-- The loop of `netip.parseIPv4Fields` over the bytes not yet seen: `first` is
`i == 0`, `prev` is `s[i-1]`, `fields` holds `fields[0:pos]`. -/
def parseIPv4FieldsLoop : List Nat → Bool → Nat → Nat → Nat → Nat → List Nat → Option (List Nat)
  | [], _, _, val, pos, _, fields => if pos < 3 then none else some (fields ++ [val])
  | c :: cs, first, prev, val, pos, digLen, fields =>
    if 48 ≤ c ∧ c ≤ 57 then
      if digLen = 1 ∧ val = 0 then none
      else if val * 10 + (c - 48) > 255 then none
      else parseIPv4FieldsLoop cs false c (val * 10 + (c - 48)) pos (digLen + 1) fields
    else if c = 46 then
      if first = true ∨ cs = [] ∨ prev = 46 then none
      else if pos = 3 then none
      else parseIPv4FieldsLoop cs false c 0 (pos + 1) 0 (fields ++ [val])
    else none

/-- The function `netip.parseIPv4Fields`: four dotted decimal octets. -/
def parseIPv4Fields (s : List Nat) : Option (List Nat) :=
  parseIPv4FieldsLoop s true 0 0 0 0 []

/-- The value of a hexadecimal digit, if the byte is one. -/
def hexVal (c : Nat) : Option Nat :=
  if 48 ≤ c ∧ c ≤ 57 then some (c - 48)
  else if 97 ≤ c ∧ c ≤ 102 then some (c - 97 + 10)
  else if 65 ≤ c ∧ c ≤ 70 then some (c - 65 + 10)
  else none

/-- The inner loop of `netip.parseIPv6` that reads one hexadecimal group:
returns the accumulator, the number `off` of digits and the bytes after them;
fails on a fifth digit or on a value above `0xFFFF`. -/
def scanHex : List Nat → Nat → Nat → Option (Nat × Nat × List Nat)
  | [], acc, off => some (acc, off, [])
  | c :: cs, acc, off =>
    match hexVal c with
    | none => some (acc, off, c :: cs)
    | some d =>
      if off > 3 then none
      else if acc * 16 + d > 0xFFFF then none
      else scanHex cs (acc * 16 + d) (off + 1)

/-- What `netip.parseIPv6` does after its main loop: the whole string must be
used, and a `::` is expanded to the missing zero bytes. `ip` holds `ip[0:i]`. -/
def parseIPv6Finish (s : List Nat) (ip : List Nat) (ellipsis : Option Nat) : Option (List Nat) :=
  if s ≠ [] then none
  else if ip.length < 16 then
    match ellipsis with
    | none => none
    | some e => some (ip.take e ++ List.replicate (16 - ip.length) 0 ++ ip.drop e)
  else
    match ellipsis with
    | some _ => none
    | none => some ip

/-- The main loop `for i < 16` of `netip.parseIPv6`; `ip` holds `ip[0:i]`, so
`i = ip.length`; every turn adds two bytes, so eight turns are enough. -/
def parseIPv6Loop : Nat → List Nat → List Nat → Option Nat → Option (List Nat)
  | 0, s, ip, ellipsis => parseIPv6Finish s ip ellipsis
  | fuel + 1, s, ip, ellipsis =>
    if ¬ ip.length < 16 then parseIPv6Finish s ip ellipsis
    else
      match scanHex s 0 0 with
      | none => none
      | some (acc, off, rest) =>
        if off = 0 then none
        else if rest.head? = some 46 then
          if ellipsis = none ∧ ip.length ≠ 12 then none
          else if ip.length + 4 > 16 then none
          else
            match parseIPv4Fields s with
            | none => none
            | some fields => parseIPv6Finish [] (ip ++ fields) ellipsis
        else
          let ip1 := ip ++ [acc / 256, acc % 256]
          match rest with
          | [] => parseIPv6Finish [] ip1 ellipsis
          | c :: rest1 =>
            if c ≠ 58 then none
            else
              match rest1 with
              | [] => none
              | c1 :: rest2 =>
                if c1 = 58 then
                  if ellipsis ≠ none then none
                  else
                    match rest2 with
                    | [] => parseIPv6Finish [] ip1 (some ip1.length)
                    | _ :: _ => parseIPv6Loop fuel rest2 ip1 (some ip1.length)
                else parseIPv6Loop fuel (c1 :: rest2) ip1 ellipsis

/-- The function `netip.parseIPv6`, returning the 16 bytes and the zone. -/
def parseIPv6 (s : List Nat) : Option (List Nat × List Nat) :=
  let body := s.takeWhile (fun c => c != 37)
  let zone := (s.dropWhile (fun c => c != 37)).drop 1
  if 37 ∈ s ∧ zone = [] then none
  else
    match body with
    | 58 :: 58 :: [] => some (List.replicate 16 0, zone)
    | 58 :: 58 :: c :: rest => (parseIPv6Loop 8 (c :: rest) [] (some 0)).map (fun ip => (ip, zone))
    | _ => (parseIPv6Loop 8 body [] none).map (fun ip => (ip, zone))

/-- The first of the bytes `.`, `:` and `%` in a string, on which
`netip.ParseAddr` dispatches. -/
def firstSep : List Nat → Option Nat
  | [] => none
  | c :: cs => if c = 46 ∨ c = 58 ∨ c = 37 then some c else firstSep cs

/-- The function `net.ParseIP`: the 16-byte form of the address a string
denotes (`netip.ParseAddr` followed by `As16`), `none` for `nil`: the string
is no IP literal, or carries a zone. -/
def ParseIP (s : List Nat) : Option IP :=
  match firstSep s with
  | some 46 => (parseIPv4Fields s).map (fun fields => v4InV6Prefix ++ fields)
  | some 58 =>
    match parseIPv6 s with
    | some (ip, []) => some ip
    | _ => none
  | _ => none

/-! ## Standard library: `encoding/binary`, `io` -/

/-- The function `binary.BigEndian.Uint16`; `none` is the run-time panic on a
slice of fewer than two bytes. -/
def BigEndianUint16 : List Nat → Option Nat
  | b0 :: b1 :: _ => some (b0 * 256 + b1)
  | _ => none

/-- The function `binary.BigEndian.PutUint16` on a fresh `[2]byte`. -/
def BigEndianPutUint16 (v : Nat) : List Nat := [v / 256 % 256, v % 256]

/-- The conversion `uint16(x)` of a Go `int`. -/
def toUint16 (x : Int) : Nat := (x % 65536).toNat

/-- The function `io.ReadFull` on a finite input `r` with a buffer of `n`
bytes: the buffer and the input left, or `none` for an error (the input ends
before `n` bytes; nothing is left then). -/
def readFull (r : List Nat) (n : Nat) : Option (List Nat × List Nat) :=
  if n ≤ r.length then some (r.take n, r.drop n) else none

/-- The slice expression `buf[lo:hi]` on a slice whose capacity is its length;
`none` is the run-time panic `slice bounds out of range`. -/
def slice (buf : List Nat) (lo hi : Nat) : Option (List Nat) :=
  if lo ≤ hi ∧ hi ≤ buf.length then some ((buf.take hi).drop lo) else none

/-! ## Errors -/

/-- The errors the codec and its callers return. -/
inductive Error where
  /-- `unable to read ATYP` -/
  | unableToReadATYP
  /-- `failed to read IPv4` -/
  | failedToReadIPv4
  /-- `failed to read IPv6` -/
  | failedToReadIPv6
  /-- `failed to read domain name length` -/
  | failedToReadDomainNameLength
  /-- `failed to read domain name` -/
  | failedToReadDomainName
  /-- `invalid ATYP ` followed by the decimal tag -/
  | invalidATYP (t : Nat)
  /-- `strconv.ErrSyntax` -/
  | strconvSyntax
  /-- `strconv.ErrRange` -/
  | strconvRange
  /-- an error of the underlying stream, with a code that tells them apart -/
  | stream (code : Nat)
  /-- `io.EOF` -/
  | eof
  /-- `io.ErrNoProgress` -/
  | noProgress
  /-- the package variable `errVersionError` -/
  | versionError
  /-- `password authentication failed.` -/
  | passwordAuthenticationFailed
  /-- `socks method negotiation failed.` -/
  | methodNegotiationFailed
  /-- `unexpected auth` -/
  | unexpectedAuth
  /-- `Can't complete SOCKS5 connection.` -/
  | connectFailed
  /-- the package variable `errCommandNotSupported` -/
  | commandNotSupported
  /-- the error kind `InvalidAddress` of the specification -/
  | invalidAddress
  /-- the error kind `TruncatedAddress` of the specification -/
  | truncatedAddress
  /-- an error of `tls.Conn.Handshake` -/
  | tlsHandshake
  deriving DecidableEq

/-! ## Standard library: `net.SplitHostPort`, `strconv.ParseInt`, `strings.ToUpper` -/

/-- The function `bytealg.IndexByteString`: the first position of a byte. -/
def indexByte : List Nat → Nat → Option Nat
  | [], _ => none
  | b :: bs, c => if b = c then some 0 else (indexByte bs c).map (fun i => i + 1)

/-- The function `bytealg.LastIndexByteString`: the last position of a byte. -/
def lastIndexByte : List Nat → Nat → Option Nat
  | [], _ => none
  | b :: bs, c =>
    match lastIndexByte bs c with
    | some i => some (i + 1)
    | none => if b = c then some 0 else none

/-- The function `net.SplitHostPort`: host and port, or `none` for an
`*AddrError` (host and port are then both empty). -/
def SplitHostPort (hostport : List Nat) : Option (List Nat × List Nat) :=
  match lastIndexByte hostport 58 with
  | none => none
  | some i =>
    if hostport.head? = some 91 then
      match indexByte hostport 93 with
      | none => none
      | some e =>
        if e + 1 = hostport.length then none
        else if e + 1 = i then
          if (indexByte (hostport.drop 1) 91).isSome then none
          else if (indexByte (hostport.drop (e + 1)) 93).isSome then none
          else some ((hostport.take e).drop 1, hostport.drop (i + 1))
        else none
    else
      if (indexByte (hostport.take i) 58).isSome then none
      else if (indexByte hostport 91).isSome then none
      else if (indexByte hostport 93).isSome then none
      else some (hostport.take i, hostport.drop (i + 1))

/-- The digit loop of `strconv.ParseUint(s, 10, 32)`: a byte that is no
decimal digit is a syntax error, a value above `1<<32 - 1` a range error. -/
def parseUintLoop : List Nat → Nat → Except Error Nat
  | [], n => .ok n
  | c :: cs, n =>
    if 48 ≤ c ∧ c ≤ 57 then
      if n * 10 + (c - 48) > 4294967295 then .error .strconvRange
      else parseUintLoop cs (n * 10 + (c - 48))
    else .error .strconvSyntax

/-- The call `strconv.ParseUint(s, 10, 32)`. -/
def ParseUint32 (s : List Nat) : Except Error Nat :=
  if s = [] then .error .strconvSyntax else parseUintLoop s 0

/-- The call `strconv.ParseInt(s, 10, 32)`: an optional sign and decimal
digits, with a value from `-1<<31` to `1<<31 - 1`. (After a range error of
`ParseUint` the value is `1<<32 - 1`, which fails the range check again.) -/
def ParseInt32 (s : List Nat) : Except Error Int :=
  if s = [] then .error .strconvSyntax
  else
    let neg : Bool := s.head? = some 45
    let s1 := if s.head? = some 43 ∨ s.head? = some 45 then s.drop 1 else s
    match ParseUint32 s1 with
    | .error e => .error e
    | .ok un =>
      if neg = false ∧ un ≥ 2147483648 then .error .strconvRange
      else if neg = true ∧ un > 2147483648 then .error .strconvRange
      else .ok (if neg then - (un : Int) else (un : Int))

/-- The upper-case form of an ASCII byte: the letters `a` to `z` move to `A`
to `Z`, every other byte stays. -/
def upperByte (c : Nat) : Nat := if 97 ≤ c ∧ c ≤ 122 then c - 32 else c

/-- The function `strings.ToUpper`, exact wherever its result is compared with
an ASCII string. The ASCII letters are upper-cased; of all other runes only
two have an ASCII upper-case form, and both are mapped: U+017F (long s, the
bytes `C5 BF`) gives `S`, and U+0131 (dotless i, the bytes `C4 B1`) gives
`I`. Every other byte of 0x80 and above stays as it is: in Go it belongs to a
rune whose upper-case form is not ASCII, or to an invalid sequence that Go
replaces by U+FFFD, so in Go as here the result then differs from every ASCII
string. (`C4` and `C5` are never continuation bytes, so a rune always starts
at them.) -/
def ToUpper : List Nat → List Nat
  | [] => []
  | [c] => [upperByte c]
  | c :: c1 :: cs =>
    if c = 0xC5 ∧ c1 = 0xBF then 0x53 :: ToUpper cs
    else if c = 0xC4 ∧ c1 = 0xB1 then 0x49 :: ToUpper cs
    else upperByte c :: ToUpper (c1 :: cs)

/-- The function `strings.ToLower` on the ASCII letters; other bytes are kept.
(No other letter has a lower-case form among `c`, `d`, `p`, `t`, `u`, so a
comparison of the result with `tcp`, `udp` and the like is as in Go.) -/
def ToLower (s : List Nat) : List Nat :=
  s.map (fun c => if 65 ≤ c ∧ c ≤ 90 then c + 32 else c)

/-! ## `common.go`: the address codec -/

/-- The type `AddressType`, a byte. -/
abbrev AddressType := Nat

/-- The constant `IPv4` of type `AddressType`. -/
def AddressType.IPv4 : AddressType := 1

/-- The constant `DomainName` of type `AddressType`. -/
def AddressType.DomainName : AddressType := 3

/-- The constant `IPv6` of type `AddressType`. -/
def AddressType.IPv6 : AddressType := 4

/-- The struct `Address`. -/
structure Address where
  DomainName : List Nat
  Port : Int
  NetworkType : List Nat
  IP : IP
  AddressType : AddressType
  deriving DecidableEq

/-- A fresh `Address`: the zero value `Address{}`. -/
def Address.zero : Address :=
  { DomainName := [], Port := 0, NetworkType := [], IP := [], AddressType := 0 }

/-- How a call of `Address.ReadFrom` ends. -/
inductive ReadOutcome where
  /-- it returns `nil` -/
  | ok
  /-- it returns a non-nil error -/
  | error (e : Error)
  /-- it panics (`slice bounds out of range`) -/
  | panic
  deriving DecidableEq

/-- The function `NewAddressFromHostPort`. -/
def NewAddressFromHostPort (network : List Nat) (host : List Nat) (port : Int) : Address :=
  match ParseIP host with
  | some ip =>
    if To4 ip ≠ [] then
      { DomainName := [], IP := ip, Port := port, AddressType := AddressType.IPv4, NetworkType := network }
    else
      { DomainName := [], IP := ip, Port := port, AddressType := AddressType.IPv6, NetworkType := network }
  | none =>
    { DomainName := host, IP := [], Port := port, AddressType := AddressType.DomainName, NetworkType := network }

/-- The function `NewAddressFromAddr`. The error of `net.SplitHostPort` is
overwritten by the one of `strconv.ParseInt`, which gets the empty string when
the split failed. -/
def NewAddressFromAddr (network : List Nat) (addr : List Nat) : Except Error Address :=
  let hp : List Nat × List Nat := (SplitHostPort addr).getD ([], [])
  match ParseInt32 hp.2 with
  | .error err => .error err
  | .ok port => .ok (NewAddressFromHostPort network hp.1 port)

/-- The part of `Address.ReadFrom` after the `DomainName` frame has been read
into `buf`: slicing off the host, reclassifying an IP literal, and the port.
`length` is the length byte. -/
def readDomainBody (a : Address) (length : Nat) (buf : List Nat) : ReadOutcome × Address :=
  match slice buf 0 length with
  | none => (.panic, a)
  | some host =>
    let a2 : Address :=
      match ParseIP host with
      | some ip =>
        if To4 ip ≠ [] then { a with IP := ip, AddressType := AddressType.IPv4 }
        else { a with IP := ip, AddressType := AddressType.IPv6 }
      | none => { a with DomainName := host }
    match slice buf length ((length + 2) % 256) with
    | none => (.panic, a2)
    | some p =>
      match BigEndianUint16 p with
      | none => (.panic, a2)
      | some port => (.ok, { a2 with Port := (port : Int) })

/-- The method `Address.ReadFrom` on the input `r`: how the call ends, the
receiver after the call, and the input left unread. -/
def Address.ReadFrom (a : Address) (r : List Nat) : ReadOutcome × Address × List Nat :=
  match readFull r 1 with
  | none => (.error .unableToReadATYP, a, [])
  | some (byteBuf, r1) =>
    let a1 : Address := { a with AddressType := byteBuf.getD 0 0 }
    if a1.AddressType = AddressType.IPv4 then
      match readFull r1 6 with
      | none => (.error .failedToReadIPv4, a1, [])
      | some (buf, r2) =>
        (.ok, { a1 with IP := buf.take 4, Port := ((buf.getD 4 0 * 256 + buf.getD 5 0 : Nat) : Int) }, r2)
    else if a1.AddressType = AddressType.IPv6 then
      match readFull r1 18 with
      | none => (.error .failedToReadIPv6, a1, [])
      | some (buf, r2) =>
        (.ok, { a1 with IP := buf.take 16, Port := ((buf.getD 16 0 * 256 + buf.getD 17 0 : Nat) : Int) }, r2)
    else if a1.AddressType = AddressType.DomainName then
      match readFull r1 1 with
      | none => (.error .failedToReadDomainNameLength, a1, [])
      | some (byteBuf1, r2) =>
        let length := byteBuf1.getD 0 0
        match readFull r2 ((length + 2) % 256) with
        | none => (.error .failedToReadDomainName, a1, [])
        | some (buf, r3) =>
          let res := readDomainBody a1 length buf
          (res.1, res.2, r3)
    else (.error (.invalidATYP a1.AddressType), a1, r1)

/-- An `io.Writer`: a state and what `Write` does to it (the byte count it
returns is never looked at by the code). -/
structure Writer (σ : Type) where
  Write : σ → List Nat → σ × Option Error

/-- The writer after a sequence of `Write` calls that all go through. -/
def Writer.writeAll {σ : Type} (W : Writer σ) (w : σ) (ps : List (List Nat)) : σ :=
  ps.foldl (fun s p => (W.Write s p).1) w

/-- The method `Address.WriteTo` on the writer `W` in state `w`: the writer
after the call and the error returned (`none` is `nil`). -/
def Address.WriteTo {σ : Type} (a : Address) (W : Writer σ) (w : σ) : σ × Option Error :=
  match W.Write w [a.AddressType % 256] with
  | (w1, some err) => (w1, some err)
  | (w1, none) =>
    let payload : Option (σ × Option Error) :=
      if a.AddressType = AddressType.DomainName then
        let w2 := (W.Write w1 [a.DomainName.length % 256]).1
        some (W.Write w2 a.DomainName)
      else if a.AddressType = AddressType.IPv4 then some (W.Write w1 (To4 a.IP))
      else if a.AddressType = AddressType.IPv6 then some (W.Write w1 (To16 a.IP))
      else none
    match payload with
    | none => (w1, some (.invalidATYP a.AddressType))
    | some (w3, some err) => (w3, some err)
    | some (w3, none) => W.Write w3 (BigEndianPutUint16 (toUint16 a.Port))

/-- A writer that accepts every write and appends it to what it holds, as a
`bytes.Buffer` does. -/
def bufferWriter : Writer (List Nat) :=
  { Write := fun w p => (w ++ p, none) }

/-- A writer driven by a script: every `Write` call takes the next entry, an
error to return or `none` to accept the bytes; after the script every write
is accepted. The state is the bytes accepted and the script left. -/
def scriptWriter : Writer (List Nat × List (Option Error)) :=
  { Write := fun w p =>
      match w.2 with
      | [] => ((w.1 ++ p, []), none)
      | none :: rest => ((w.1 ++ p, rest), none)
      | some e :: rest => ((w.1, rest), some e) }

/-! ## Standard library: `net.Conn`, `bufio.Reader` -/

/-- A `net.Conn`: a state, what `Write` does to it, and what `Read` with a
buffer of `n` bytes does: the bytes put in the buffer and the error. -/
structure ConnOps (σ : Type) where
  Write : σ → List Nat → σ × Option Error
  Read : σ → Nat → σ × List Nat × Option Error

/-- A `bufio.Reader`: the bytes buffered and not yet consumed
(`b.buf[b.r:b.w]`) and the pending error `b.err`. -/
structure Reader where
  buf : List Nat
  err : Option Error
  deriving DecidableEq

/-- The function `bufio.NewReader`. -/
def NewReader : Reader := { buf := [], err := none }

/-- What `bufio.Reader.fill` leaves on an empty buffer: some data (with the
error of the same `Read`, kept pending), or no data and an error. -/
inductive Filled where
  | data (b : Nat) (bs : List Nat) (err : Option Error)
  | failed (err : Error)
  deriving DecidableEq

/-- The method `bufio.Reader.fill` on an empty buffer of 4096 bytes: up to
`maxConsecutiveEmptyReads` calls of `Read` until one brings data or an error. -/
def Reader.fill {σ : Type} (C : ConnOps σ) : Nat → σ → Filled × σ
  | 0, conn => (.failed .noProgress, conn)
  | i + 1, conn =>
    match C.Read conn 4096 with
    | (conn1, b :: bs, err) => (.data b bs err, conn1)
    | (conn1, [], some err) => (.failed err, conn1)
    | (conn1, [], none) => Reader.fill C i conn1

/-- The method `bufio.Reader.ReadByte`. -/
def Reader.ReadByte {σ : Type} (C : ConnOps σ) (b : Reader) (conn : σ) :
    Except Error Nat × Reader × σ :=
  match b.buf with
  | x :: xs => (.ok x, { b with buf := xs }, conn)
  | [] =>
    match b.err with
    | some e => (.error e, { b with err := none }, conn)
    | none =>
      match Reader.fill C 100 conn with
      | (.data x xs err, conn1) => (.ok x, { buf := xs, err := err }, conn1)
      | (.failed e, conn1) => (.error e, { buf := [], err := none }, conn1)

/-! ## `client_socks5.go`: the SOCKS5 client -/

/-- Modelled from the spec: the constant `socks5version`, declared outside the
two source files; the protocol's version byte is 0x05. -/
def socks5version : Nat := 0x05

/-- Modelled from the spec: the constant `socks5AuthMethodNoRequired`, declared
outside the two source files; the method code of no-auth is 0x00. -/
def socks5AuthMethodNoRequired : Nat := 0x00

/-- Modelled from the spec: the constant `socks5AuthMethodPassword`, declared
outside the two source files; the method code of username/password is 0x02. -/
def socks5AuthMethodPassword : Nat := 0x02

/-- Modelled from the spec: the method `socks5InitialRequest.ToPacket`, declared
outside the two source files; the request is the version byte, the number of
methods and the methods. -/
def socks5InitialRequestToPacket (version : Nat) (methods : List Nat) : List Nat :=
  version :: (methods.length % 256) :: methods

/-- The type `url.Userinfo`: user name and password (empty if not set). -/
structure Userinfo where
  username : List Nat
  password : List Nat
  deriving DecidableEq

/-- The struct `Socks5Client`, as far as the handshake reads it: the scheme
and the user of `c.proxy` (`none` is a `nil` user). -/
structure Socks5Client where
  Scheme : List Nat
  User : Option Userinfo
  deriving DecidableEq

/-- The method `Socks5Client.isTLS`: the scheme in upper case is `SOCKS5+TLS`
(so `socks5+tls` in any mix of cases, and also with U+017F for an `s`). -/
def Socks5Client.isTLS (c : Socks5Client) : Bool :=
  ToUpper c.Scheme = [83, 79, 67, 75, 83, 53, 43, 84, 76, 83]

/-- The method `Userinfo.Username` on `c.proxy.User` (empty on `nil`). -/
def Socks5Client.Username (c : Socks5Client) : List Nat :=
  match c.User with
  | some u => u.username
  | none => []

/-- The method `Userinfo.Password` on `c.proxy.User` (empty on `nil`). -/
def Socks5Client.Password (c : Socks5Client) : List Nat :=
  match c.User with
  | some u => u.password
  | none => []

/-- The method `Socks5Client.passwordAuth`: the boolean and the error it
returns, and the connection after the call. -/
def Socks5Client.passwordAuth {σ : Type} (C : ConnOps σ) (c : Socks5Client) (conn : σ) :
    Bool × Option Error × σ :=
  let username := c.Username
  let password := c.Password
  let request := [1] ++ [username.length % 256] ++ username ++ [password.length % 256] ++ password
  match C.Write conn request with
  | (conn1, some err) => (false, some err, conn1)
  | (conn1, none) =>
    match C.Read conn1 2 with
    | (conn2, _, some err) => (false, some err, conn2)
    | (conn2, p, none) =>
      let response := [p.getD 0 0, p.getD 1 0]
      if response.getD 0 0 ≠ 0x01 then (false, some .unexpectedAuth, conn2)
      else (response.getD 1 0 == 0, none, conn2)

/-- The clause `case auth == 2 && method == socks5AuthMethodPassword` of
`Socks5Client.handshake`, entered with the result parameter `err` of
`handshake`. Its `passed, err := c.passwordAuth(conn)` declares a new `err`
local to the clause: `return err` returns that one, and `err = errors.New(..)`
under `!passed` assigns that one, so the bare `return` that ends `handshake`
returns the result parameter as it was. The value is what `handshake` returns,
the local `err` at the end of the clause, and the connection. -/
def Socks5Client.handshakePasswordCase {σ : Type} (C : ConnOps σ) (c : Socks5Client) (conn : σ)
    (err : Option Error) : Option Error × Option Error × σ :=
  match c.passwordAuth C conn with
  | (_, some errLocal, conn1) => (some errLocal, some errLocal, conn1)
  | (passed, none, conn1) =>
    let errLocal : Option Error :=
      if passed = false then some .passwordAuthenticationFailed else none
    (err, errLocal, conn1)

/-- The method `Socks5Client.handshake`: the error it returns (`none` is
`nil`) and the connection after the call. -/
def Socks5Client.handshake {σ : Type} (C : ConnOps σ) (c : Socks5Client) (conn : σ) :
    Option Error × σ :=
  let method0 :=
    if c.User ≠ none ∧ c.Username ≠ [] then socks5AuthMethodPassword
    else socks5AuthMethodNoRequired
  let method := if c.isTLS = true then (method0 + 0x80) % 256 else method0
  match C.Write conn (socks5InitialRequestToPacket socks5version [method]) with
  | (conn1, some err) => (some err, conn1)
  | (conn1, none) =>
    match NewReader.ReadByte C conn1 with
    | (.error err, _, conn2) => (some err, conn2)
    | (.ok version, reader, conn2) =>
      if version ≠ socks5version then (some .versionError, conn2)
      else
        match reader.ReadByte C conn2 with
        | (.error err, _, conn3) => (some err, conn3)
        | (.ok auth, _, conn3) =>
          if auth = 2 ∧ method = socks5AuthMethodPassword then
            let res := c.handshakePasswordCase C conn3 none
            (res.1, res.2.2)
          else if auth ≠ 0 ∧ method = socks5AuthMethodNoRequired then
            (some .methodNegotiationFailed, conn3)
          else (none, conn3)

/-- A connection driven by a script: `incoming` lists the segments the server
sends, one `Read` takes from the first of them what its buffer holds (an
`io.EOF` when none is left); `written` lists the `Write` calls made. -/
structure ScriptConn where
  incoming : List (List Nat)
  written : List (List Nat)
  deriving DecidableEq

/-- The operations of a `ScriptConn`. -/
def scriptConn : ConnOps ScriptConn :=
  { Write := fun c p => ({ c with written := c.written ++ [p] }, none)
    Read := fun c n =>
      match c.incoming with
      | [] => (c, [], some .eof)
      | seg :: rest =>
        if seg.length ≤ n then ({ c with incoming := rest }, seg, none)
        else ({ c with incoming := seg.drop n :: rest }, seg.take n, none) }

/-- The loop of `bufio.Reader.Discard` with `remain` bytes to go: on an empty
buffer it calls `fill` (a pending error stays unless the `Read` brings a new
one), skips what the buffer holds, up to `remain`, and returns the pending
error if bytes are still missing. Every turn that goes on has skipped a byte,
so `remain` turns are enough. -/
def Reader.discardLoop {σ : Type} (C : ConnOps σ) : Nat → Nat → Reader → σ →
    Option Error × Reader × σ
  | 0, _, b, conn => (none, b, conn)
  | fuel + 1, remain, b, conn =>
    let filled : Reader × σ :=
      match b.buf with
      | _ :: _ => (b, conn)
      | [] =>
        match Reader.fill C 100 conn with
        | (.data x xs (some e), conn1) => ({ buf := x :: xs, err := some e }, conn1)
        | (.data x xs none, conn1) => ({ buf := x :: xs, err := b.err }, conn1)
        | (.failed e, conn1) => ({ buf := [], err := some e }, conn1)
    let skip := min filled.1.buf.length remain
    let b2 : Reader := { filled.1 with buf := filled.1.buf.drop skip }
    if remain - skip = 0 then (none, b2, filled.2)
    else
      match b2.err with
      | some e => (some e, { b2 with err := none }, filled.2)
      | none => Reader.discardLoop C fuel (remain - skip) b2 filled.2

/-- The method `bufio.Reader.Discard`: the error it returns, the reader and
the connection after the call. -/
def Reader.Discard {σ : Type} (C : ConnOps σ) (n : Nat) (b : Reader) (conn : σ) :
    Option Error × Reader × σ :=
  if n = 0 then (none, b, conn) else Reader.discardLoop C n n b conn

/-- Modelled from the spec: the constant `commandConnect`, declared outside the
two source files; the command byte of CONNECT is 0x01. -/
def commandConnect : Nat := 0x01

/-- Modelled from the spec: the constant `commandUDPAssociate`, declared outside
the two source files; the command byte of UDP ASSOCIATE is 0x03. -/
def commandUDPAssociate : Nat := 0x03

/-- Modelled from the spec: the constant `socks5AddressTypeFQDN`, declared
outside the two source files; the address type of a domain name is 0x03. -/
def socks5AddressTypeFQDN : Nat := 0x03

/-- The method `Socks5Client.commandByNetwork`. -/
def Socks5Client.commandByNetwork (_c : Socks5Client) (network : List Nat) : Except Error Nat :=
  let n := ToLower network
  if n = [116, 99, 112] ∨ n = [116, 99, 112, 52] ∨ n = [116, 99, 112, 54] then
    .ok commandConnect
  else if n = [117, 100, 112] ∨ n = [117, 100, 112, 52] ∨ n = [117, 100, 112, 54] then
    .ok commandUDPAssociate
  else .error .commandNotSupported

/-- The structs `socks5Request` and `socks5Addr`, with the fields `Dial` sets. -/
structure socks5Request where
  version : Nat
  command : Nat
  addrType : Nat
  addr : List Nat
  port : Nat
  deriving DecidableEq

/-- Modelled from the spec: the method `socks5Request.ToPacket`, declared
outside the two source files; the command request is the version byte, the
command byte, a reserved zero byte and the address: its type, its bytes and
the port as two big-endian bytes. -/
def socks5Request.ToPacket (r : socks5Request) : List Nat :=
  [r.version % 256, r.command % 256, 0, r.addrType % 256] ++ r.addr ++
    BigEndianPutUint16 (r.port % 65536)

/-- The request `Socks5Client.Dial` builds for a host, a port and a command:
always of type FQDN, the host behind one byte `byte(len(host))`. -/
def Socks5Client.dialRequest (host : List Nat) (port : Nat) (command : Nat) : socks5Request :=
  { version := socks5version
    command := command
    addrType := socks5AddressTypeFQDN
    addr := [host.length % 256] ++ host
    port := port }

/-- What `client_socks5.go` uses and neither source file declares, taken as
parameters: the helpers `splitHostPort` and `readSocks5Addr` of the package
(the latter on a `bufio.Reader`), the dialer `c.conf.Dial(network,
c.proxy.Host)` with a state `δ` of its own, the handshake of
`tls.Client(remoteConn, c.tlsConfig)` and `Close`. -/
structure Outside (σ δ : Type) where
  splitHostPort : List Nat → Except Error (List Nat × Nat)
  readSocks5Addr : Reader → σ → Option Error × Reader × σ
  Dial : δ → List Nat → δ × Except Error σ
  tlsHandshake : σ → σ × Option Error
  Close : σ → σ

/-- The method `Socks5Client.handleConnect`: the error it returns and the
connection after the call. -/
def Socks5Client.handleConnect {σ δ : Type} (C : ConnOps σ) (O : Outside σ δ)
    (_c : Socks5Client) (conn : σ) : Option Error × σ :=
  match NewReader.ReadByte C conn with
  | (.error err, _, conn1) => (some err, conn1)
  | (.ok version, reader1, conn1) =>
    if version ≠ socks5version then (some .versionError, conn1)
    else
      match reader1.ReadByte C conn1 with
      | (.error err, _, conn2) => (some err, conn2)
      | (.ok status, reader2, conn2) =>
        if status ≠ 0 then (some .connectFailed, conn2)
        else
          match reader2.Discard C 1 conn2 with
          | (some err, _, conn3) => (some err, conn3)
          | (none, reader3, conn3) =>
            match O.readSocks5Addr reader3 conn3 with
            | (some err, _, conn4) => (some err, conn4)
            | (none, _, conn4) => (none, conn4)

/-- The method `Socks5Client.handleUDPAssociate`: the error it returns and the
connection after the call. -/
def Socks5Client.handleUDPAssociate {σ δ : Type} (C : ConnOps σ) (O : Outside σ δ)
    (_c : Socks5Client) (conn : σ) : Option Error × σ :=
  match NewReader.Discard C 2 conn with
  | (some err, _, conn1) => (some err, conn1)
  | (none, reader1, conn1) =>
    match reader1.Discard C 1 conn1 with
    | (some err, _, conn2) => (some err, conn2)
    | (none, reader2, conn2) =>
      match O.readSocks5Addr reader2 conn2 with
      | (some err, _, conn3) => (some err, conn3)
      | (none, _, conn3) => (none, conn3)

/-- The method `Socks5Client.Dial`: the connection and the error it returns
(`none` is `nil`), and the dialer after the call. -/
def Socks5Client.Dial {σ δ : Type} (C : ConnOps σ) (O : Outside σ δ) (c : Socks5Client)
    (d : δ) (network address : List Nat) : Option σ × Option Error × δ :=
  match O.splitHostPort address with
  | .error err => (none, some err, d)
  | .ok (host, port) =>
    match c.commandByNetwork network with
    | .error err => (none, some err, d)
    | .ok command =>
      let request := Socks5Client.dialRequest host port command
      match O.Dial d network with
      | (d1, .error err) => (none, some err, d1)
      | (d1, .ok remoteConn) =>
        let tls : σ × Option Error :=
          if c.isTLS = true then
            match O.tlsHandshake remoteConn with
            | (tlsConn, some err) => (O.Close tlsConn, some err)
            | (tlsConn, none) => (tlsConn, none)
          else (remoteConn, none)
        match tls with
        | (remoteConn1, some err) => (some remoteConn1, some err, d1)
        | (remoteConn1, none) =>
          match c.handshake C remoteConn1 with
          | (some err, conn2) => (some conn2, some err, d1)
          | (none, conn2) =>
            match C.Write conn2 request.ToPacket with
            | (conn3, some err) => (some conn3, some err, d1)
            | (conn3, none) =>
              if request.command = commandConnect then
                (some (c.handleConnect C O conn3).2, (c.handleConnect C O conn3).1, d1)
              else if request.command = commandUDPAssociate then
                (some (c.handleUDPAssociate C O conn3).2, (c.handleUDPAssociate C O conn3).1, d1)
              else (some conn3, none, d1)

/-- Modelled from the spec: the helper `splitHostPort`, declared outside the two
source files; it splits the destination into host and port and fails with
`InvalidAddress` when the split fails or the port is no unsigned 16-bit
integer. -/
def splitHostPort (address : List Nat) : Except Error (List Nat × Nat) :=
  match SplitHostPort address with
  | none => .error .invalidAddress
  | some (host, portStr) =>
    match ParseUint32 portStr with
    | .error _ => .error .invalidAddress
    | .ok port => if port < 65536 then .ok (host, port) else .error .invalidAddress

/-- Reading `n` bytes one after the other from a `bufio.Reader`. -/
def Reader.readN {σ : Type} (C : ConnOps σ) : Nat → Reader → σ →
    Except Error (List Nat) × Reader × σ
  | 0, b, conn => (.ok [], b, conn)
  | n + 1, b, conn =>
    match b.ReadByte C conn with
    | (.error e, b1, conn1) => (.error e, b1, conn1)
    | (.ok x, b1, conn1) =>
      match Reader.readN C n b1 conn1 with
      | (.error e, b2, conn2) => (.error e, b2, conn2)
      | (.ok xs, b2, conn2) => (.ok (x :: xs), b2, conn2)

/-- Modelled from the spec: the helper `readSocks5Addr`, declared outside the
two source files; it decodes one address from the reply: it reads the tag
byte, then 4 address bytes and 2 port bytes (IPv4), 16 and 2 (IPv6), or a
length byte `L` and `L + 2` bytes (DomainName); any other tag fails with
`InvalidAddressType`, any short read with `TruncatedAddress`. -/
def readSocks5Addr {σ : Type} (C : ConnOps σ) (b : Reader) (conn : σ) :
    Option Error × Reader × σ :=
  let body : Nat → Reader → σ → Option Error × Reader × σ := fun n b1 conn1 =>
    match Reader.readN C n b1 conn1 with
    | (.error _, b2, conn2) => (some .truncatedAddress, b2, conn2)
    | (.ok _, b2, conn2) => (none, b2, conn2)
  match b.ReadByte C conn with
  | (.error _, b1, conn1) => (some .truncatedAddress, b1, conn1)
  | (.ok tag, b1, conn1) =>
    if tag = 0x01 then body 6 b1 conn1
    else if tag = 0x04 then body 18 b1 conn1
    else if tag = 0x03 then
      match b1.ReadByte C conn1 with
      | (.error _, b2, conn2) => (some .truncatedAddress, b2, conn2)
      | (.ok L, b2, conn2) => body (L + 2) b2 conn2
    else (some (.invalidATYP tag), b1, conn1)

/-- A transport for the examples: a scripted connection and whether `Close`
has been called on it. -/
structure Transport where
  conn : ScriptConn
  closed : Bool
  deriving DecidableEq

/-- The operations of a `Transport`, those of its scripted connection. -/
def transportOps : ConnOps Transport :=
  { Write := fun t p =>
      ({ t with conn := (scriptConn.Write t.conn p).1 }, (scriptConn.Write t.conn p).2)
    Read := fun t n =>
      ({ t with conn := (scriptConn.Read t.conn n).1 }, (scriptConn.Read t.conn n).2) }

/-- The collaborators for the examples: the helpers as the specification
describes them, a dialer that counts its calls and opens a transport to a
server with the script `server`, a TLS handshake that ends with `tlsErr`, and
a `Close` that marks the transport. -/
def scriptOutside (server : List (List Nat)) (tlsErr : Option Error) : Outside Transport Nat :=
  { splitHostPort := splitHostPort
    readSocks5Addr := readSocks5Addr transportOps
    Dial := fun d _ => (d + 1, .ok ⟨⟨server, []⟩, false⟩)
    tlsHandshake := fun t => (t, tlsErr)
    Close := fun t => { t with closed := true } }

/-! ## Lemmas on the standard library models and on the codec -/

/-- Reading `n` bytes from an input that starts with `n` bytes. -/
theorem readFull_append (p rest : List Nat) (n : Nat) (h : p.length = n) :
    readFull (p ++ rest) n = some (p, rest) := by
  subst h
  simp [readFull]

/-- Reading more bytes than the input holds fails. -/
theorem readFull_short (r : List Nat) (n : Nat) (h : r.length < n) : readFull r n = none := by
  simp [readFull]; omega

/-- Reading one byte from a non-empty input. -/
theorem readFull_one (b : Nat) (r : List Nat) : readFull (b :: r) 1 = some ([b], r) := by
  simp [readFull]

/-- Reading from the empty input fails. -/
theorem readFull_nil (n : Nat) (h : 0 < n) : readFull [] n = none := by
  simp [readFull]; omega

/-- Slicing off the first part of a buffer. -/
theorem slice_front (p q : List Nat) : slice (p ++ q) 0 p.length = some p := by
  simp [slice]

/-- Slicing off the last part of a buffer. -/
theorem slice_back (p q : List Nat) (n : Nat) (h : n = p.length + q.length) :
    slice (p ++ q) p.length n = some q := by
  subst h
  have : List.take (p.length + q.length) (p ++ q) = p ++ q :=
    List.take_of_length_le (by simp)
  simp [slice, this]

/-- On a `DomainName` tag, a length byte and a buffer of `(L + 2) % 256` bytes,
`ReadFrom` goes on with the domain-name branch on that buffer. -/
theorem ReadFrom_domain_unfold (a : Address) (L : Nat) (buf rest : List Nat)
    (h : buf.length = (L + 2) % 256) :
    a.ReadFrom (3 :: L :: (buf ++ rest)) =
      ((readDomainBody { a with AddressType := AddressType.DomainName } L buf).1,
       (readDomainBody { a with AddressType := AddressType.DomainName } L buf).2, rest) := by
  have h4 := readFull_append buf rest ((L + 2) % 256) h
  simp [Address.ReadFrom, readFull_one, AddressType.IPv4, AddressType.IPv6,
    AddressType.DomainName, h4]

/-- The domain-name branch on a frame whose name is an IP literal. -/
theorem readDomainBody_literal (a : Address) (name : List Nat) (hi lo : Nat) (ip : IP)
    (h : name.length ≤ 253) (hp : ParseIP name = some ip) :
    readDomainBody a name.length (name ++ [hi, lo]) =
      (.ok, { a with IP := ip,
                     AddressType := if To4 ip ≠ [] then AddressType.IPv4 else AddressType.IPv6,
                     Port := ((hi * 256 + lo : Nat) : Int) }) := by
  have h2 : (name.length + 2) % 256 = name.length + 2 := by omega
  simp only [readDomainBody, slice_front, h2, hp]
  rw [slice_back name [hi, lo] _ (by simp)]
  by_cases h4 : To4 ip = [] <;> simp [BigEndianUint16, h4]

/-- The domain-name branch on a frame whose name is no IP literal. -/
theorem readDomainBody_name (a : Address) (name : List Nat) (hi lo : Nat)
    (h : name.length ≤ 253) (hp : ParseIP name = none) :
    readDomainBody a name.length (name ++ [hi, lo]) =
      (.ok, { a with DomainName := name, Port := ((hi * 256 + lo : Nat) : Int) }) := by
  have h2 : (name.length + 2) % 256 = name.length + 2 := by omega
  simp only [readDomainBody, slice_front, h2, hp]
  rw [slice_back name [hi, lo] _ (by simp)]
  simp [BigEndianUint16]

/-- The domain-name branch panics for a length byte of 254 or more. -/
theorem readDomainBody_panic (a : Address) (L : Nat) (buf : List Nat)
    (h : buf.length = (L + 2) % 256) (hL : 254 ≤ L) :
    readDomainBody a L buf = (.panic, a) := by
  have : ¬ L ≤ buf.length := by omega
  simp [readDomainBody, slice, this]

/-- Decoding a whole `DomainName` frame whose name is an IP literal. -/
theorem ReadFrom_domain_literal (a : Address) (name : List Nat) (hi lo : Nat) (rest : List Nat)
    (ip : IP) (h : name.length ≤ 253) (hp : ParseIP name = some ip) :
    a.ReadFrom (3 :: name.length :: (name ++ hi :: lo :: rest)) =
      (.ok, { a with IP := ip,
                     AddressType := if To4 ip ≠ [] then AddressType.IPv4 else AddressType.IPv6,
                     Port := ((hi * 256 + lo : Nat) : Int) }, rest) := by
  have h3 : name ++ hi :: lo :: rest = (name ++ [hi, lo]) ++ rest := by simp
  rw [h3, ReadFrom_domain_unfold a name.length (name ++ [hi, lo]) rest (by simp; omega),
    readDomainBody_literal _ name hi lo ip h hp]

/-- Decoding a whole `DomainName` frame whose name is no IP literal. -/
theorem ReadFrom_domain_name (a : Address) (name : List Nat) (hi lo : Nat) (rest : List Nat)
    (h : name.length ≤ 253) (hp : ParseIP name = none) :
    a.ReadFrom (3 :: name.length :: (name ++ hi :: lo :: rest)) =
      (.ok, { a with DomainName := name, AddressType := AddressType.DomainName,
                     Port := ((hi * 256 + lo : Nat) : Int) }, rest) := by
  have h3 : name ++ hi :: lo :: rest = (name ++ [hi, lo]) ++ rest := by simp
  rw [h3, ReadFrom_domain_unfold a name.length (name ++ [hi, lo]) rest (by simp; omega),
    readDomainBody_name _ name hi lo h hp]

/-- Decoding after a `DomainName` tag and a length byte of 254 or more panics
once the `(L + 2) % 256` bytes of the buffer are there. -/
theorem ReadFrom_domain_panic (a : Address) (L : Nat) (buf rest : List Nat)
    (h : buf.length = (L + 2) % 256) (hL : 254 ≤ L) :
    a.ReadFrom (3 :: L :: (buf ++ rest)) =
      (.panic, { a with AddressType := AddressType.DomainName }, rest) := by
  rw [ReadFrom_domain_unfold a L buf rest h, readDomainBody_panic _ L buf h hL]

/-- An accepted dotted quad has at most 15 bytes and yields four octets. -/
theorem parseIPv4FieldsLoop_bound (s : List Nat) :
    ∀ (first : Bool) (prev val pos digLen : Nat) (fields r : List Nat),
      parseIPv4FieldsLoop s first prev val pos digLen fields = some r →
      pos ≤ 3 → fields.length = pos →
      ((digLen = 0 ∧ val = 0) ∨ (digLen = 1 ∧ val ≤ 9) ∨ (digLen = 2 ∧ 10 ≤ val) ∨
        (digLen = 3 ∧ 100 ≤ val)) →
      s.length + digLen + 4 * pos ≤ 15 ∧ r.length = 4 := by
  induction s with
  | nil =>
    intro first prev val pos digLen fields r h hpos hf hinv
    simp only [parseIPv4FieldsLoop] at h
    split at h
    · simp at h
    · simp only [Option.some.injEq] at h
      subst h
      simp
      omega
  | cons c cs ih =>
    intro first prev val pos digLen fields r h hpos hf hinv
    simp only [parseIPv4FieldsLoop] at h
    split at h
    · split at h
      · simp at h
      · split at h
        · simp at h
        · have := ih _ _ _ _ _ _ _ h hpos hf (by omega)
          simp only [List.length_cons]
          omega
    · split at h
      · split at h
        · simp at h
        · split at h
          · simp at h
          · have := ih _ _ _ _ _ _ _ h (by omega) (by simp [hf]) (by omega)
            simp only [List.length_cons]
            omega
      · simp at h

/-- A string `netip.parseIPv4Fields` accepts has at most 15 bytes. -/
theorem parseIPv4Fields_bound (s r : List Nat) (h : parseIPv4Fields s = some r) :
    s.length ≤ 15 ∧ r.length = 4 := by
  have := parseIPv4FieldsLoop_bound s true 0 0 0 0 [] r h (by omega) rfl (by omega)
  omega

/-- A hexadecimal group has at most four digits. -/
theorem scanHex_bound (s : List Nat) :
    ∀ (acc off acc1 off1 : Nat) (rest : List Nat),
      scanHex s acc off = some (acc1, off1, rest) → off ≤ 4 →
      off1 ≤ 4 ∧ s.length + off = rest.length + off1 := by
  induction s with
  | nil =>
    intro acc off acc1 off1 rest h hoff
    simp only [scanHex, Option.some.injEq, Prod.mk.injEq] at h
    obtain ⟨-, h2, h3⟩ := h
    subst h2 h3
    simp [hoff]
  | cons c cs ih =>
    intro acc off acc1 off1 rest h hoff
    simp only [scanHex] at h
    split at h
    · simp only [Option.some.injEq, Prod.mk.injEq] at h
      obtain ⟨-, h2, h3⟩ := h
      subst h2 h3
      simp [hoff]
    · split at h
      · simp at h
      · split at h
        · simp at h
        · have := ih _ _ _ _ _ h (by omega)
          simp only [List.length_cons]
          omega

/-- The end of `netip.parseIPv6` accepts only a used-up string. -/
theorem parseIPv6Finish_nil (s ip r : List Nat) (e : Option Nat)
    (h : parseIPv6Finish s ip e = some r) : s = [] := by
  by_contra hne
  simp [parseIPv6Finish, hne] at h

/-- The main loop of `netip.parseIPv6` uses at most six bytes a turn. -/
theorem parseIPv6Loop_bound (fuel : Nat) :
    ∀ (s ip r : List Nat) (e : Option Nat),
      parseIPv6Loop fuel s ip e = some r → s.length ≤ 6 * fuel + 15 := by
  induction fuel with
  | zero =>
    intro s ip r e h
    simp only [parseIPv6Loop] at h
    simp [parseIPv6Finish_nil _ _ _ _ h]
  | succ n ih =>
    intro s ip r e h
    simp only [parseIPv6Loop] at h
    split at h
    · simp [parseIPv6Finish_nil _ _ _ _ h]
    · split at h
      · simp at h
      · rename_i acc off rest hscan
        have hb := scanHex_bound s 0 0 acc off rest hscan (by omega)
        split at h
        · simp at h
        · split at h
          · split at h
            · simp at h
            · split at h
              · simp at h
              · split at h
                · simp at h
                · rename_i fields hf
                  have := parseIPv4Fields_bound s fields hf
                  omega
          · split at h
            · simp only [List.length_nil] at hb
              omega
            · split at h
              · simp at h
              · split at h
                · simp at h
                · split at h
                  · split at h
                    · simp at h
                    · split at h
                      · simp only [List.length_cons, List.length_nil] at hb
                        omega
                      · have := ih _ _ _ _ h
                        simp only [List.length_cons] at hb this
                        omega
                  · have := ih _ _ _ _ h
                    simp only [List.length_cons] at hb this
                    omega

/-- A string without the byte `c` is its own part before `c`. -/
theorem takeWhile_ne_of_not_mem (s : List Nat) (c : Nat) (h : c ∉ s) :
    s.takeWhile (fun x => x != c) = s := by
  induction s with
  | nil => rfl
  | cons x xs ih =>
    simp only [List.mem_cons, not_or] at h
    have hx : (x != c) = true := by simpa using fun e => h.1 e.symm
    simp [List.takeWhile_cons, hx, ih h.2]

/-- A string `netip.parseIPv6` accepts without zone has at most 65 bytes. -/
theorem parseIPv6_bound (s ip : List Nat) (h : parseIPv6 s = some (ip, [])) :
    s.length ≤ 65 := by
  simp only [parseIPv6] at h
  split at h
  · simp at h
  · rename_i hz
    by_cases hm : 37 ∈ s
    · have hzone : (s.dropWhile (fun c => c != 37)).drop 1 ≠ [] := fun e => hz ⟨hm, e⟩
      split at h
      · simp only [Option.some.injEq, Prod.mk.injEq] at h
        exact absurd h.2 hzone
      · simp only [Option.map_eq_some'] at h
        obtain ⟨_, _, h2⟩ := h
        simp only [Prod.mk.injEq] at h2
        exact absurd h2.2 hzone
      · simp only [Option.map_eq_some'] at h
        obtain ⟨_, _, h2⟩ := h
        simp only [Prod.mk.injEq] at h2
        exact absurd h2.2 hzone
    · rw [takeWhile_ne_of_not_mem s 37 hm] at h
      split at h
      · simp
      · simp only [Option.map_eq_some'] at h
        obtain ⟨r, h1, _⟩ := h
        have := parseIPv6Loop_bound 8 _ _ _ _ h1
        simp only [List.length_cons] at this ⊢
        omega
      · simp only [Option.map_eq_some'] at h
        obtain ⟨r, h1, _⟩ := h
        have := parseIPv6Loop_bound 8 _ _ _ _ h1
        omega

/-- A string that `net.ParseIP` accepts has at most 65 bytes. -/
theorem ParseIP_length_le (s : List Nat) (ip : IP) (h : ParseIP s = some ip) : s.length ≤ 65 := by
  simp only [ParseIP] at h
  split at h
  · simp only [Option.map_eq_some'] at h
    obtain ⟨f, hf, _⟩ := h
    have := parseIPv4Fields_bound s f hf
    omega
  · split at h
    · rename_i ip1 h6
      exact parseIPv6_bound s ip1 h6
    · simp at h
  · simp at h

/-- A dotted quad that `net.ParseIP` accepts is an IPv4 address. -/
theorem ParseIP_dotted_To4 (s : List Nat) (ip : IP) (hs : firstSep s = some 46)
    (h : ParseIP s = some ip) : To4 ip ≠ [] := by
  simp only [ParseIP, hs, Option.map_eq_some'] at h
  obtain ⟨f, hf, rfl⟩ := h
  have h4 := (parseIPv4Fields_bound s f hf).2
  match f, h4 with
  | [a, b, c, d], _ => simp [To4, v4InV6Prefix, IPv4len, IPv6len, isZeros]

/-- A string of letters `a` has no separator. -/
theorem firstSep_replicate_a (n : Nat) : firstSep (List.replicate n 97) = none := by
  induction n with
  | zero => rfl
  | succ k ih => simp [List.replicate_succ, firstSep, ih]

/-- A string of letters `a` is no IP literal. -/
theorem ParseIP_replicate_a (n : Nat) : ParseIP (List.replicate n 97) = none := by
  simp [ParseIP, firstSep_replicate_a]

/-- What `WriteTo` puts in a buffer for a `DomainName` address. -/
theorem WriteTo_buffer_domain (a : Address) (w : List Nat)
    (h : a.AddressType = AddressType.DomainName) :
    a.WriteTo bufferWriter w =
      (w ++ [3] ++ [a.DomainName.length % 256] ++ a.DomainName ++
        BigEndianPutUint16 (toUint16 a.Port), none) := by
  simp [Address.WriteTo, bufferWriter, h, AddressType.DomainName]

/-- The domain-name branch never returns an error: it ends well or panics. -/
theorem readDomainBody_not_error (a : Address) (L : Nat) (buf : List Nat) (e : Error) :
    (readDomainBody a L buf).1 ≠ ReadOutcome.error e := by
  simp only [readDomainBody]
  repeat' split
  all_goals simp

/-- A non-nil `To4` has four bytes. -/
theorem To4_length (ip : IP) (h : To4 ip ≠ []) : (To4 ip).length = 4 := by
  unfold To4 at h ⊢
  split
  · assumption
  · split
    · rename_i h16
      simp only [List.length_drop, List.length_take]
      simp only [IPv6len] at h16
      omega
    · simp_all

/-- A non-nil `To16` has sixteen bytes. -/
theorem To16_length (ip : IP) (h : To16 ip ≠ []) : (To16 ip).length = 16 := by
  unfold To16 at h ⊢
  split
  · rename_i h4
    simp only [IPv4len] at h4
    simp [v4InV6Prefix, h4]
  · split
    · assumption
    · simp_all

/-- The two port bytes written for a port in range decode to the port. -/
theorem port_bytes_roundtrip (p : Int) (h0 : 0 ≤ p) (h1 : p < 65536) :
    ((toUint16 p / 256 % 256 * 256 + toUint16 p % 256 : Nat) : Int) = p := by
  unfold toUint16
  have h : p % 65536 = p := Int.emod_eq_of_lt h0 h1
  rw [h]
  have hn : (p.toNat : Int) = p := Int.toNat_of_nonneg h0
  have hlt : p.toNat < 65536 := by omega
  omega

/-- Decoding a whole `IPv4` frame. -/
theorem ReadFrom_IPv4_frame (a : Address) (ip : List Nat) (hi lo : Nat) (rest : List Nat)
    (h : ip.length = 4) :
    a.ReadFrom (1 :: (ip ++ hi :: lo :: rest)) =
      (.ok, { a with AddressType := AddressType.IPv4, IP := ip,
                     Port := ((hi * 256 + lo : Nat) : Int) }, rest) := by
  match ip, h with
  | [b0, b1, b2, b3], _ => simp [Address.ReadFrom, readFull, AddressType.IPv4]

/-- Decoding a whole `IPv6` frame. -/
theorem ReadFrom_IPv6_frame (a : Address) (ip : List Nat) (hi lo : Nat) (rest : List Nat)
    (h : ip.length = 16) :
    a.ReadFrom (4 :: (ip ++ hi :: lo :: rest)) =
      (.ok, { a with AddressType := AddressType.IPv6, IP := ip,
                     Port := ((hi * 256 + lo : Nat) : Int) }, rest) := by
  have h3 : ip ++ hi :: lo :: rest = (ip ++ [hi, lo]) ++ rest := by simp
  have h4 := readFull_append (ip ++ [hi, lo]) rest 18 (by simp [h])
  have h5 : List.take 16 (ip ++ [hi, lo]) = ip := by
    rw [← h]; simp
  have h6 : (ip ++ [hi, lo]).getD 16 0 = hi := by
    rw [List.getD_append_right _ _ _ _ (by omega)]; simp [h]
  have h7 : (ip ++ [hi, lo]).getD 17 0 = lo := by
    rw [List.getD_append_right _ _ _ _ (by omega)]; simp [h]
  rw [h3]
  simp only [Address.ReadFrom, readFull_one, List.getD_cons_zero, AddressType.IPv4,
    AddressType.IPv6, h4, h5, h6, h7]
  simp

/-- The round trip of the codec on every address of the data model whose
domain name has at most 253 bytes. -/
theorem WriteTo_ReadFrom_roundtrip (a : Address) (h0 : 0 ≤ a.Port) (h1 : a.Port < 65536)
    (hv : (a.AddressType = AddressType.IPv4 ∧ a.IP.length = 4 ∧ a.DomainName = []) ∨
      (a.AddressType = AddressType.IPv6 ∧ a.IP.length = 16 ∧ a.DomainName = []) ∨
      (a.AddressType = AddressType.DomainName ∧ a.IP = [] ∧ 1 ≤ a.DomainName.length ∧
        a.DomainName.length ≤ 253 ∧ ParseIP a.DomainName = none)) :
    (a.WriteTo bufferWriter []).2 = none ∧
    Address.zero.ReadFrom (a.WriteTo bufferWriter []).1 =
      (.ok, { a with NetworkType := [] }, []) := by
  have hp := port_bytes_roundtrip a.Port h0 h1
  rcases hv with ⟨ht, hl, hd⟩ | ⟨ht, hl, hd⟩ | ⟨ht, hi, _, hl, hp2⟩
  · have h4 : To4 a.IP = a.IP := by simp [To4, hl, IPv4len]
    have hw : a.WriteTo bufferWriter [] =
        (1 :: (a.IP ++ (toUint16 a.Port / 256 % 256) :: (toUint16 a.Port % 256) :: []), none) := by
      simp [Address.WriteTo, bufferWriter, ht, AddressType.IPv4, AddressType.DomainName, h4,
        BigEndianPutUint16]
    rw [hw]
    refine ⟨rfl, ?_⟩
    rw [ReadFrom_IPv4_frame _ _ _ _ _ hl, hp]
    cases a
    simp_all [Address.zero]
  · have h16 : To16 a.IP = a.IP := by simp [To16, hl, IPv4len, IPv6len]
    have hw : a.WriteTo bufferWriter [] =
        (4 :: (a.IP ++ (toUint16 a.Port / 256 % 256) :: (toUint16 a.Port % 256) :: []), none) := by
      simp [Address.WriteTo, bufferWriter, ht, AddressType.IPv4, AddressType.IPv6,
        AddressType.DomainName, h16, BigEndianPutUint16]
    rw [hw]
    refine ⟨rfl, ?_⟩
    rw [ReadFrom_IPv6_frame _ _ _ _ _ hl, hp]
    cases a
    simp_all [Address.zero]
  · have hw : a.WriteTo bufferWriter [] =
        (3 :: a.DomainName.length ::
          (a.DomainName ++ (toUint16 a.Port / 256 % 256) :: (toUint16 a.Port % 256) :: []),
          none) := by
      have hm : a.DomainName.length % 256 = a.DomainName.length := by omega
      simp [Address.WriteTo, bufferWriter, ht, AddressType.DomainName, BigEndianPutUint16, hm]
    rw [hw]
    refine ⟨rfl, ?_⟩
    rw [ReadFrom_domain_name _ _ _ _ _ hl hp2, hp]
    cases a
    simp_all [Address.zero]

/-- Every truncated frame whose length byte is at most 253 is rejected with an error. -/
theorem ReadFrom_truncated_error (a : Address) (r : List Nat)
    (h : r = [] ∨ (∃ rest, r = 1 :: rest ∧ rest.length < 6) ∨
      (∃ rest, r = 4 :: rest ∧ rest.length < 18) ∨ r = [3] ∨
      (∃ L rest, r = 3 :: L :: rest ∧ L ≤ 253 ∧ rest.length < L + 2)) :
    ∃ e, (a.ReadFrom r).1 = ReadOutcome.error e := by
  rcases h with rfl | ⟨rest, rfl, hl⟩ | ⟨rest, rfl, hl⟩ | rfl | ⟨L, rest, rfl, hL, hl⟩
  · exact ⟨_, rfl⟩
  · exact ⟨.failedToReadIPv4, by
      simp [Address.ReadFrom, readFull_one, readFull_short _ _ hl, AddressType.IPv4]⟩
  · exact ⟨.failedToReadIPv6, by
      simp [Address.ReadFrom, readFull_one, readFull_short _ _ hl, AddressType.IPv4,
        AddressType.IPv6]⟩
  · exact ⟨_, rfl⟩
  · have h2 : (L + 2) % 256 = L + 2 := by omega
    exact ⟨.failedToReadDomainName, by
      simp [Address.ReadFrom, readFull_one, h2, readFull_short _ _ hl, AddressType.IPv4,
        AddressType.IPv6, AddressType.DomainName]⟩

/-- On a plain scheme with a user name, after the answers `05 02` and `01 s`,
`handshake` returns `nil` whatever the status byte `s` is. -/
theorem handshake_nil_for_every_status (s : Nat) :
    (Socks5Client.handshake scriptConn
        { Scheme := [115, 111, 99, 107, 115, 53],
          User := some { username := [117, 115, 101, 114], password := [112, 97, 115, 115] } }
        { incoming := [[5, 2], [1, s]], written := [] }).1 = none := by
  simp [Socks5Client.handshake, Socks5Client.handshakePasswordCase, Socks5Client.passwordAuth,
    Socks5Client.isTLS, Socks5Client.Username, Socks5Client.Password, ToUpper, upperByte,
    Reader.ReadByte,
    Reader.fill, NewReader, scriptConn, socks5AuthMethodPassword, socks5AuthMethodNoRequired,
    socks5version, socks5InitialRequestToPacket]

/-! ## Lemmas on the scripted connection and on successful decoding -/

/-- A `Read` on a scripted connection leaves the written bytes as they are. -/
theorem scriptConn_Read_written (conn : ScriptConn) (n : Nat) :
    (scriptConn.Read conn n).1.written = conn.written := by
  simp only [scriptConn]
  split
  · rfl
  · split <;> rfl

/-- A `Write` on a scripted connection goes through and is recorded. -/
theorem scriptConn_Write (conn : ScriptConn) (p : List Nat) :
    scriptConn.Write conn p = ({ conn with written := conn.written ++ [p] }, none) := rfl

/-- The method `fill` on a scripted connection leaves the written bytes as they are. -/
theorem fill_scriptConn_written (k : Nat) :
    ∀ conn : ScriptConn, (Reader.fill scriptConn k conn).2.written = conn.written := by
  induction k with
  | zero => intro conn; rfl
  | succ k ih =>
    intro conn
    have h := scriptConn_Read_written conn 4096
    simp only [Reader.fill]
    split
    · rename_i heq; rw [heq] at h; exact h
    · rename_i heq; rw [heq] at h; exact h
    · rename_i heq; rw [heq] at h; rw [ih]; exact h

/-- The method `ReadByte` on a scripted connection leaves the written bytes as they are. -/
theorem ReadByte_scriptConn_written (b : Reader) (conn : ScriptConn) :
    (b.ReadByte scriptConn conn).2.2.written = conn.written := by
  have h := fill_scriptConn_written 100 conn
  simp only [Reader.ReadByte]
  split
  · rfl
  · split
    · rfl
    · split
      · rename_i heq; rw [heq] at h; exact h
      · rename_i heq; rw [heq] at h; exact h

/-- The method `passwordAuth` on a scripted connection writes one request. -/
theorem passwordAuth_scriptConn_written (c : Socks5Client) (conn : ScriptConn) :
    ∃ req, (c.passwordAuth scriptConn conn).2.2.written = conn.written ++ [req] := by
  refine ⟨[1] ++ [c.Username.length % 256] ++ c.Username ++ [c.Password.length % 256] ++
    c.Password, ?_⟩
  have h := scriptConn_Read_written
    { conn with written := conn.written ++ [[1] ++ [c.Username.length % 256] ++ c.Username ++
      [c.Password.length % 256] ++ c.Password] } 2
  simp only [Socks5Client.passwordAuth, scriptConn_Write]
  split
  · rename_i heq; rw [heq] at h; exact h
  · rename_i heq; rw [heq] at h
    split <;> exact h

/-- After its first `Write`, `handshake` on a scripted connection only adds to
what has been written. -/
theorem handshake_scriptConn_written (c : Socks5Client) (conn : ScriptConn) :
    ∃ tail, (Socks5Client.handshake scriptConn c conn).2.written =
      conn.written ++
        [socks5InitialRequestToPacket socks5version
          [if c.isTLS = true then
            ((if c.User ≠ none ∧ c.Username ≠ [] then socks5AuthMethodPassword
              else socks5AuthMethodNoRequired) + 0x80) % 256
           else (if c.User ≠ none ∧ c.Username ≠ [] then socks5AuthMethodPassword
              else socks5AuthMethodNoRequired)]] ++ tail := by
  simp only [Socks5Client.handshake, scriptConn_Write]
  generalize (if c.isTLS = true then
            ((if c.User ≠ none ∧ c.Username ≠ [] then socks5AuthMethodPassword
              else socks5AuthMethodNoRequired) + 0x80) % 256
           else (if c.User ≠ none ∧ c.Username ≠ [] then socks5AuthMethodPassword
              else socks5AuthMethodNoRequired)) = meth
  generalize socks5InitialRequestToPacket socks5version [meth] = pk
  generalize hc1 : ({ conn with written := conn.written ++ [pk] } : ScriptConn) = conn1
  have hw1 : conn1.written = conn.written ++ [pk] := by rw [← hc1]
  have hr1 := ReadByte_scriptConn_written NewReader conn1
  split
  · rename_i heq; rw [heq] at hr1
    exact ⟨[], by simp only [List.append_nil]; rw [← hw1]; exact hr1⟩
  · rename_i version reader conn2 heq
    rw [heq] at hr1
    simp only at hr1
    split
    · exact ⟨[], by simp only [List.append_nil]; rw [← hw1]; exact hr1⟩
    · have hr2 := ReadByte_scriptConn_written reader conn2
      split
      · rename_i heq2; rw [heq2] at hr2
        exact ⟨[], by simp only [List.append_nil]; rw [← hw1, ← hr1]; exact hr2⟩
      · rename_i auth _ conn3 heq2
        rw [heq2] at hr2
        simp only at hr2
        split
        · obtain ⟨req, hreq⟩ := passwordAuth_scriptConn_written c conn3
          refine ⟨[req], ?_⟩
          simp only [Socks5Client.handshakePasswordCase]
          split
          · rename_i heq3; rw [heq3] at hreq
            simp only at hreq ⊢
            rw [hreq, hr2, hr1, hw1]
          · rename_i heq3; rw [heq3] at hreq
            simp only at hreq ⊢
            rw [hreq, hr2, hr1, hw1]
        · split
          · exact ⟨[], by simp only [List.append_nil]; rw [← hw1, ← hr1]; exact hr2⟩
          · exact ⟨[], by simp only [List.append_nil]; rw [← hw1, ← hr1]; exact hr2⟩

/-- The first `fill` of a scripted connection whose next segment is not empty. -/
theorem fill_scriptConn_cons (x : Nat) (xs : List Nat) (more written : List (List Nat)) :
    Reader.fill scriptConn 100 { incoming := (x :: xs) :: more, written := written } =
      (Filled.data x (xs.take 4095) none,
       { incoming := if xs.length + 1 ≤ 4096 then more else (x :: xs).drop 4096 :: more,
         written := written }) := by
  by_cases h : xs.length + 1 ≤ 4096
  · have h2 : List.take 4095 xs = xs := List.take_of_length_le (by omega)
    simp [Reader.fill, scriptConn, h, h2]
  · simp [Reader.fill, scriptConn, h]

/-- The first `fill` of a scripted connection with nothing left. -/
theorem fill_scriptConn_nil (written : List (List Nat)) :
    Reader.fill scriptConn 100 { incoming := [], written := written } =
      (Filled.failed Error.eof, { incoming := [], written := written }) := by
  simp [Reader.fill, scriptConn]

/-- A successful `io.ReadFull` splits the input. -/
theorem readFull_some (r p q : List Nat) (n : Nat) (h : readFull r n = some (p, q)) :
    r = p ++ q ∧ p.length = n := by
  simp only [readFull] at h
  split at h
  · simp only [Option.some.injEq, Prod.mk.injEq] at h
    obtain ⟨rfl, rfl⟩ := h
    exact ⟨(List.take_append_drop n r).symm, by simp; omega⟩
  · simp at h

/-- A buffer of `n + 2` bytes is its first `n` bytes and its last two. -/
theorem split_last_two (n : Nat) : ∀ p : List Nat, p.length = n + 2 →
    p = p.take n ++ [p.getD n 0, p.getD (n + 1) 0] := by
  induction n with
  | zero =>
    intro p hp
    match p, hp with
    | [x, y], _ => rfl
  | succ k ih =>
    intro p hp
    match p, hp with
    | x :: xs, hp =>
      have := ih xs (by simpa using hp)
      simp only [List.take_succ_cons, List.cons_append, List.getD_cons_succ]
      rw [← this]

/-- If the domain-name branch ends well, the buffer had `L + 2` bytes and the
port is the big-endian value of the last two. -/
theorem readDomainBody_ok (a a1 : Address) (L : Nat) (buf : List Nat)
    (hl : buf.length = (L + 2) % 256) (h : readDomainBody a L buf = (ReadOutcome.ok, a1)) :
    buf.length = L + 2 ∧ a1.Port = ((buf.getD L 0 * 256 + buf.getD (L + 1) 0 : Nat) : Int) := by
  simp only [readDomainBody] at h
  split at h
  · simp at h
  · rename_i host hs
    simp only [slice] at hs
    split at hs
    · rename_i hle
      have hL : buf.length = L + 2 := by omega
      refine ⟨hL, ?_⟩
      have hsplit := split_last_two L buf hL
      have h2 : (L + 2) % 256 = L + 2 := by omega
      have hs2 : slice buf L ((L + 2) % 256) = some [buf.getD L 0, buf.getD (L + 1) 0] := by
        rw [h2]
        have hlen : (List.take L buf).length = L := by simp; omega
        have := slice_back (List.take L buf) [buf.getD L 0, buf.getD (L + 1) 0] (L + 2)
          (by simp [hlen])
        rw [← hsplit, hlen] at this
        exact this
      rw [hs2] at h
      simp only [BigEndianUint16, Prod.mk.injEq, true_and] at h
      rw [← h]
    · simp at hs

/-- The same, with names for the parts. -/
theorem split_last_two_ex (n : Nat) (p : List Nat) (h : p.length = n + 2) :
    ∃ (body : List Nat) (hi lo : Nat), p = body ++ [hi, lo] ∧ body.length = n ∧
      p.getD n 0 = hi ∧ p.getD (n + 1) 0 = lo ∧ p.take n = body :=
  ⟨p.take n, p.getD n 0, p.getD (n + 1) 0, split_last_two n p h, by simp; omega, rfl, rfl, rfl⟩

/-! ## Lemmas on the parsed IP and on the request of `Dial` -/

/-- The end of `netip.parseIPv6` yields 16 bytes. -/
theorem parseIPv6Finish_length (s ip r : List Nat) (e : Option Nat)
    (h : parseIPv6Finish s ip e = some r) (hl : ip.length ≤ 16) : r.length = 16 := by
  simp only [parseIPv6Finish] at h
  split at h
  · simp at h
  · split at h
    · split at h
      · simp at h
      · simp only [Option.some.injEq] at h
        subst h
        simp only [List.length_append, List.length_take, List.length_replicate, List.length_drop]
        omega
    · split at h
      · simp at h
      · simp only [Option.some.injEq] at h
        subst h
        omega

/-- The main loop of `netip.parseIPv6` yields 16 bytes. -/
theorem parseIPv6Loop_length (fuel : Nat) :
    ∀ (s ip r : List Nat) (e : Option Nat),
      parseIPv6Loop fuel s ip e = some r → ip.length % 2 = 0 → ip.length ≤ 16 →
      r.length = 16 := by
  induction fuel with
  | zero =>
    intro s ip r e h _ hl
    simp only [parseIPv6Loop] at h
    exact parseIPv6Finish_length _ _ _ _ h hl
  | succ n ih =>
    intro s ip r e h hev hl
    simp only [parseIPv6Loop] at h
    split at h
    · exact parseIPv6Finish_length _ _ _ _ h hl
    · rename_i hlt
      split at h
      · simp at h
      · split at h
        · simp at h
        · split at h
          · split at h
            · simp at h
            · split at h
              · simp at h
              · split at h
                · simp at h
                · rename_i fields hf
                  have h4 := (parseIPv4Fields_bound s fields hf).2
                  exact parseIPv6Finish_length _ _ _ _ h (by simp [h4]; omega)
          · have hl1 : ∀ a b : Nat, (ip ++ [a, b]).length ≤ 16 := by
              intro a b; simp; omega
            have hev1 : ∀ a b : Nat, (ip ++ [a, b]).length % 2 = 0 := by
              intro a b; simp; omega
            split at h
            · exact parseIPv6Finish_length _ _ _ _ h (hl1 _ _)
            · split at h
              · simp at h
              · split at h
                · simp at h
                · split at h
                  · split at h
                    · simp at h
                    · split at h
                      · exact parseIPv6Finish_length _ _ _ _ h (hl1 _ _)
                      · exact ih _ _ _ _ h (hev1 _ _) (hl1 _ _)
                  · exact ih _ _ _ _ h (hev1 _ _) (hl1 _ _)

/-- What `net.ParseIP` returns has 16 bytes. -/
theorem ParseIP_length (s : List Nat) (ip : IP) (h : ParseIP s = some ip) : ip.length = 16 := by
  simp only [ParseIP] at h
  split at h
  · simp only [Option.map_eq_some'] at h
    obtain ⟨f, hf, rfl⟩ := h
    have := (parseIPv4Fields_bound s f hf).2
    simp [v4InV6Prefix, this]
  · split at h
    · rename_i ip1 h6
      simp only [Option.some.injEq] at h
      subst h
      simp only [parseIPv6] at h6
      split at h6
      · simp at h6
      · split at h6
        · simp only [Option.some.injEq, Prod.mk.injEq] at h6
          rw [← h6.1]; simp
        · simp only [Option.map_eq_some'] at h6
          obtain ⟨r, h1, h2⟩ := h6
          simp only [Prod.mk.injEq] at h2
          rw [← h2.1]
          exact parseIPv6Loop_length 8 _ _ _ _ h1 (by simp) (by simp)
        · simp only [Option.map_eq_some'] at h6
          obtain ⟨r, h1, h2⟩ := h6
          simp only [Prod.mk.injEq] at h2
          rw [← h2.1]
          exact parseIPv6Loop_length 8 _ _ _ _ h1 (by simp) (by simp)
    · simp at h
  · simp at h

/-- With 16 bytes, `To4` is non-nil exactly on the IPv4-mapped addresses. -/
theorem To4_ne_nil_iff (ip : IP) (h : ip.length = 16) :
    To4 ip ≠ [] ↔ ip.take 12 = v4InV6Prefix := by
  match ip, h with
  | [b0, b1, b2, b3, b4, b5, b6, b7, b8, b9, b10, b11, b12, b13, b14, b15], _ =>
    simp only [To4, IPv4len, IPv6len, isZeros, v4InV6Prefix]
    simp

/-- What `Dial` does once the transport is open on a plain scheme and the
handshake has succeeded. -/
theorem Dial_sends_request {σ δ : Type} (C : ConnOps σ) (O : Outside σ δ) (c : Socks5Client)
    (d d1 : δ) (network address host : List Nat) (port cmd : Nat) (rc conn2 : σ)
    (h1 : O.splitHostPort address = Except.ok (host, port))
    (h2 : c.commandByNetwork network = Except.ok cmd)
    (h3 : O.Dial d network = (d1, Except.ok rc))
    (h4 : c.isTLS = false)
    (h5 : c.handshake C rc = (none, conn2)) :
    c.Dial C O d network address =
      match C.Write conn2 ([0x05, cmd, 0x00, 0x03, host.length % 256] ++ host ++
          [port % 65536 / 256 % 256, port % 65536 % 256]) with
      | (conn3, some err) => (some conn3, some err, d1)
      | (conn3, none) =>
        if cmd = commandConnect then
          (some (c.handleConnect C O conn3).2, (c.handleConnect C O conn3).1, d1)
        else if cmd = commandUDPAssociate then
          (some (c.handleUDPAssociate C O conn3).2, (c.handleUDPAssociate C O conn3).1, d1)
        else (some conn3, none, d1) := by
  have hcmd : cmd % 256 = cmd := by
    simp only [Socks5Client.commandByNetwork] at h2
    split at h2
    · simp only [Except.ok.injEq] at h2; subst h2; rfl
    · split at h2
      · simp only [Except.ok.injEq] at h2; subst h2; rfl
      · simp at h2
  simp only [Socks5Client.Dial, h1, h2, h3, h4, h5, Socks5Client.dialRequest,
    socks5Request.ToPacket, BigEndianPutUint16, socks5version, socks5AddressTypeFQDN, hcmd]
  simp only [Bool.false_eq_true, if_false, List.cons_append, List.nil_append, Nat.reduceMod]
  rw [h5]

/-- For a host of at most 255 bytes the request `Dial` builds has the address
type 0x03 and an address field made of one length byte equal to `len(host)`
and the bytes of the host, with the port; on the wire it is
`05 cmd 00 03 len host port`. -/
theorem dialRequest_framing (host : List Nat) (port command : Nat) (hh : host.length ≤ 255)
    (hp : port < 65536) (hc : command < 256) :
    (Socks5Client.dialRequest host port command).addrType = 0x03 ∧
    (Socks5Client.dialRequest host port command).addr = host.length :: host ∧
    (Socks5Client.dialRequest host port command).port = port ∧
    (Socks5Client.dialRequest host port command).ToPacket =
      [0x05, command, 0x00, 0x03, host.length] ++ host ++ [port / 256, port % 256] := by
  have h1 : host.length % 256 = host.length := by omega
  have h2 : port % 65536 = port := by omega
  have h3 : command % 256 = command := by omega
  have h4 : port / 256 % 256 = port / 256 := by omega
  simp [Socks5Client.dialRequest, socks5Request.ToPacket, socks5AddressTypeFQDN, socks5version,
    BigEndianPutUint16, h1, h2, h3, h4]

/-- A run of `Dial` to `1.2.3.4:80`: the IP literal is framed as a name of 7
bytes in the request written after the initial request. -/
theorem Dial_frames_an_IP_literal_as_a_name :
    Socks5Client.Dial transportOps
        (scriptOutside [[5, 0], [5, 0, 0, 1, 127, 0, 0, 1, 0, 80]] none)
        { Scheme := [115, 111, 99, 107, 115, 53], User := none } 0 [116, 99, 112]
        [49, 46, 50, 46, 51, 46, 52, 58, 56, 48] =
      (some { conn := { incoming := [],
                        written := [[5, 1, 0],
                          [5, 1, 0, 3, 7, 49, 46, 50, 46, 51, 46, 52, 0, 80]] },
              closed := false },
       none, 1) := by
  decide

/-! ## The properties of the specification -/

/-- C1, on a domain name of 254 bytes that is no IP literal: `WriteTo`
accepts the address and writes the frame `03 FE name 00 50`, and `ReadFrom`
into a fresh `Address` panics on these bytes instead of returning the address:
the buffer length `length+2` is computed in a byte and wraps to 0. -/
theorem C1_roundtrip_panics_on_254_byte_name :
    ParseIP (List.replicate 254 97) = none ∧
    ({ Address.zero with AddressType := AddressType.DomainName,
                         DomainName := List.replicate 254 97, Port := 80 } : Address).WriteTo
        bufferWriter [] = (3 :: 254 :: (List.replicate 254 97 ++ [0, 80]), none) ∧
    (Address.zero.ReadFrom (3 :: 254 :: (List.replicate 254 97 ++ [0, 80]))).1 =
      ReadOutcome.panic := by
  refine ⟨ParseIP_replicate_a 254, ?_, ?_⟩
  · rw [WriteTo_buffer_domain _ _ rfl]
    have hp : BigEndianPutUint16 (toUint16 80) = [0, 80] := by decide
    simp only [hp, List.length_replicate, List.nil_append, List.append_assoc, List.cons_append,
      Nat.reduceMod]
  · have := ReadFrom_domain_panic Address.zero 254 [] (List.replicate 254 97 ++ [0, 80]) rfl
      (by omega)
    simp only [List.nil_append] at this
    rw [this]

/-- C2, on the length bytes 254 and 255 with `L + 2` bytes behind them:
`ReadFrom` does not end normally, it panics with a slice out of range (the
buffer holds `(L + 2) % 256` bytes, 0 and 1, and is sliced to `L`), having
read 0 and 1 bytes after the length byte, not `L + 2`. -/
theorem C2_domain_decode_panics_on_length_254_and_255 :
    Address.zero.ReadFrom (3 :: 254 :: List.replicate 256 97) =
      (ReadOutcome.panic, { Address.zero with AddressType := AddressType.DomainName },
        List.replicate 256 97) ∧
    Address.zero.ReadFrom (3 :: 255 :: List.replicate 257 97) =
      (ReadOutcome.panic, { Address.zero with AddressType := AddressType.DomainName },
        List.replicate 256 97) := by
  constructor
  · have := ReadFrom_domain_panic Address.zero 254 [] (List.replicate 256 97) rfl (by omega)
    simp only [List.nil_append] at this
    rw [this]
  · have := ReadFrom_domain_panic Address.zero 255 [97] (List.replicate 256 97) rfl (by omega)
    rw [show (3 :: 255 :: List.replicate 257 97) = 3 :: 255 :: ([97] ++ List.replicate 256 97)
      from rfl, this]

/-- C3, on truncated `DomainName` frames with the length bytes 254 and 255:
`ReadFrom` does not return an error, it panics. With `L = 254` the read of
`(L + 2) % 256 = 0` bytes succeeds on an empty input; with `L = 255` one byte
is enough for the read. -/
theorem C3_truncated_domain_frame_panics :
    Address.zero.ReadFrom [3, 254] =
      (ReadOutcome.panic, { Address.zero with AddressType := AddressType.DomainName }, []) ∧
    Address.zero.ReadFrom [3, 255, 97] =
      (ReadOutcome.panic, { Address.zero with AddressType := AddressType.DomainName }, []) := by
  constructor <;> decide

/-- C4 fails as stated: decoding the single byte `02` into an IPv4 address
returns the invalid-tag error and leaves `AddressType` equal to 2, not to the
`IPv4` it held before the call. -/
theorem C4_failed_decode_overwrites_AddressType :
    (({ DomainName := [], Port := 80, NetworkType := [], IP := [10, 0, 0, 1],
        AddressType := AddressType.IPv4 } : Address).ReadFrom [2]).1 =
      ReadOutcome.error (Error.invalidATYP 2) ∧
    (({ DomainName := [], Port := 80, NetworkType := [], IP := [10, 0, 0, 1],
        AddressType := AddressType.IPv4 } : Address).ReadFrom [2]).2.1.AddressType = 2 ∧
    (2 : Nat) ≠ AddressType.IPv4 := by
  decide

/-- C4 as amended: whenever `ReadFrom` returns an error, the receiver after
the call is the receiver before it with `AddressType` set to the tag byte read
(unchanged if the input was empty); `IP`, `DomainName`, `Port` and
`NetworkType` are as before. -/
theorem C4_failed_decode_changes_only_AddressType (a : Address) (r : List Nat) (e : Error)
    (h : (a.ReadFrom r).1 = ReadOutcome.error e) :
    (a.ReadFrom r).2.1 = { a with AddressType := r.headD a.AddressType } := by
  cases r with
  | nil => simp [Address.ReadFrom, readFull]
  | cons t rest =>
    simp only [Address.ReadFrom, readFull_one, List.getD_cons_zero, List.headD_cons,
      AddressType.IPv4, AddressType.IPv6, AddressType.DomainName] at h ⊢
    by_cases h1 : t = 1
    · cases h6 : readFull rest 6 with
      | none => simp [h1, h6]
      | some p => simp [h1, h6] at h
    · by_cases h4 : t = 4
      · cases h18 : readFull rest 18 with
        | none => simp [h4, h18]
        | some p => simp [h4, h18] at h
      · by_cases h3 : t = 3
        · cases hl : readFull rest 1 with
          | none => simp [h3, hl]
          | some p =>
            cases hb : readFull p.2 ((p.1.getD 0 0 + 2) % 256) with
            | none => simp only [h3, hl, hb, if_true, Nat.reduceEqDiff, if_false]
            | some q =>
              simp only [h1, h4, h3, hl, hb, if_true, if_false] at h
              exact absurd h (readDomainBody_not_error _ _ _ _)
        · simp [h1, h4, h3]

/-- A truncated IPv4 frame as an instance of the amended C4. -/
theorem C4_witness :
    (Address.zero.ReadFrom [1, 127, 0]).1 = ReadOutcome.error Error.failedToReadIPv4 ∧
    (Address.zero.ReadFrom [1, 127, 0]).2.1 =
      { DomainName := [], Port := 0, NetworkType := [], IP := [],
        AddressType := AddressType.IPv4 } :=
  ⟨by decide, C4_failed_decode_changes_only_AddressType Address.zero [1, 127, 0]
    Error.failedToReadIPv4 (by decide)⟩

/-- C5 fails as stated: after the frame for `127.0.0.1` the stored IP is the
16-byte form `::ffff:127.0.0.1`, not the four bytes `127 0 0 1`; and the name
`::ffff:1.2.3.4`, a literal in IPv6 notation, is decoded to the variant IPv4. -/
theorem C5_stored_IP_has_16_bytes_and_mapped_literal_is_IPv4 :
    (Address.zero.ReadFrom [3, 9, 49, 50, 55, 46, 48, 46, 48, 46, 49, 0, 80]).2.1.IP =
      [0, 0, 0, 0, 0, 0, 0, 0, 0, 0, 255, 255, 127, 0, 0, 1] ∧
    (Address.zero.ReadFrom [3, 9, 49, 50, 55, 46, 48, 46, 48, 46, 49, 0, 80]).2.1.IP ≠
      [127, 0, 0, 1] ∧
    firstSep [58, 58, 102, 102, 102, 102, 58, 49, 46, 50, 46, 51, 46, 52] = some 58 ∧
    Address.zero.ReadFrom
        [3, 14, 58, 58, 102, 102, 102, 102, 58, 49, 46, 50, 46, 51, 46, 52, 0, 80] =
      (ReadOutcome.ok,
       { DomainName := [], Port := 80, NetworkType := [],
         IP := [0, 0, 0, 0, 0, 0, 0, 0, 0, 0, 255, 255, 1, 2, 3, 4],
         AddressType := AddressType.IPv4 }, []) := by
  decide

/-- C5 as amended, reclassification of an IP literal: for every `DomainName`
frame whose name `net.ParseIP` accepts as `ip`, the name fits the length
byte, and `ReadFrom` into a fresh `Address` returns `nil` having read exactly
the frame, with `IP` the parsed `ip`, which has 16 bytes, `DomainName` still
empty, `Port` the big-endian value of the last two bytes, and `AddressType`
`IPv4` if `ip.To4()` is non-nil and `IPv6` otherwise; `ip.To4()` is non-nil
exactly when `ip` starts with the twelve bytes of an IPv4-mapped address, and
it is for every dotted quad. -/
theorem C5_ip_literal_in_domain_frame_is_reclassified (name : List Nat) (ip : IP) (hi lo : Nat)
    (rest : List Nat) (h : ParseIP name = some ip) :
    name.length < 256 ∧
    Address.zero.ReadFrom (3 :: name.length :: (name ++ hi :: lo :: rest)) =
      (ReadOutcome.ok,
       { DomainName := [], Port := ((hi * 256 + lo : Nat) : Int), NetworkType := [], IP := ip,
         AddressType := if To4 ip ≠ [] then AddressType.IPv4 else AddressType.IPv6 },
       rest) ∧
    (firstSep name = some 46 → To4 ip ≠ []) ∧
    ip.length = 16 ∧
    (To4 ip ≠ [] ↔ ip.take 12 = v4InV6Prefix) := by
  have hlen := ParseIP_length_le name ip h
  have h16 := ParseIP_length name ip h
  refine ⟨by omega, ?_, fun hs => ParseIP_dotted_To4 name ip hs h, h16, To4_ne_nil_iff ip h16⟩
  rw [ReadFrom_domain_literal Address.zero name hi lo rest ip (by omega) h]
  rfl

/-- The frames for `127.0.0.1` with port 80, for `::1` with port 443 and for
`::ffff:1.2.3.4` with port 80 as instances of the amended C5: the first
decodes to `IPv4` with the 16 bytes of `::ffff:127.0.0.1` (its `To4` is
`127 0 0 1`), the second to `IPv6` with the loopback address, the third to
`IPv4`. -/
theorem C5_witness :
    (ParseIP [49, 50, 55, 46, 48, 46, 48, 46, 49] =
        some [0, 0, 0, 0, 0, 0, 0, 0, 0, 0, 255, 255, 127, 0, 0, 1] ∧
      To4 [0, 0, 0, 0, 0, 0, 0, 0, 0, 0, 255, 255, 127, 0, 0, 1] = [127, 0, 0, 1] ∧
      Address.zero.ReadFrom [3, 9, 49, 50, 55, 46, 48, 46, 48, 46, 49, 0, 80] =
        (ReadOutcome.ok,
         { DomainName := [], Port := 80, NetworkType := [],
           IP := [0, 0, 0, 0, 0, 0, 0, 0, 0, 0, 255, 255, 127, 0, 0, 1],
           AddressType := AddressType.IPv4 }, [])) ∧
    (ParseIP [58, 58, 49] = some [0, 0, 0, 0, 0, 0, 0, 0, 0, 0, 0, 0, 0, 0, 0, 1] ∧
      Address.zero.ReadFrom [3, 3, 58, 58, 49, 1, 187] =
        (ReadOutcome.ok,
         { DomainName := [], Port := 443, NetworkType := [],
           IP := [0, 0, 0, 0, 0, 0, 0, 0, 0, 0, 0, 0, 0, 0, 0, 1],
           AddressType := AddressType.IPv6 }, [])) ∧
    (ParseIP [58, 58, 102, 102, 102, 102, 58, 49, 46, 50, 46, 51, 46, 52] =
        some [0, 0, 0, 0, 0, 0, 0, 0, 0, 0, 255, 255, 1, 2, 3, 4] ∧
      Address.zero.ReadFrom
          [3, 14, 58, 58, 102, 102, 102, 102, 58, 49, 46, 50, 46, 51, 46, 52, 0, 80] =
        (ReadOutcome.ok,
         { DomainName := [], Port := 80, NetworkType := [],
           IP := [0, 0, 0, 0, 0, 0, 0, 0, 0, 0, 255, 255, 1, 2, 3, 4],
           AddressType := AddressType.IPv4 }, [])) :=
  ⟨⟨by decide, by decide,
    (C5_ip_literal_in_domain_frame_is_reclassified [49, 50, 55, 46, 48, 46, 48, 46, 49]
      [0, 0, 0, 0, 0, 0, 0, 0, 0, 0, 255, 255, 127, 0, 0, 1] 0 80 [] (by decide)).2.1⟩,
   ⟨by decide,
    (C5_ip_literal_in_domain_frame_is_reclassified [58, 58, 49]
      [0, 0, 0, 0, 0, 0, 0, 0, 0, 0, 0, 0, 0, 0, 0, 1] 1 187 [] (by decide)).2.1⟩,
   ⟨by decide,
    (C5_ip_literal_in_domain_frame_is_reclassified
      [58, 58, 102, 102, 102, 102, 58, 49, 46, 50, 46, 51, 46, 52]
      [0, 0, 0, 0, 0, 0, 0, 0, 0, 0, 255, 255, 1, 2, 3, 4] 0 80 [] (by decide)).2.1⟩⟩

/-- C6, invalid tags: for every first byte other than 1, 3 and 4 and every
rest of the input, `ReadFrom` returns the invalid-ATYP error for that byte and
leaves the whole rest unread. -/
theorem C6_invalid_tag_is_rejected (a : Address) (t : Nat) (rest : List Nat)
    (h1 : t ≠ AddressType.IPv4) (h3 : t ≠ AddressType.DomainName) (h4 : t ≠ AddressType.IPv6) :
    a.ReadFrom (t :: rest) =
      (ReadOutcome.error (Error.invalidATYP t), { a with AddressType := t }, rest) := by
  simp [Address.ReadFrom, readFull_one, h1, h3, h4]

/-- The tag `02` as an instance of C6. -/
theorem C6_witness :
    Address.zero.ReadFrom [2, 127, 0, 0, 1, 0, 80] =
      (ReadOutcome.error (Error.invalidATYP 2), { Address.zero with AddressType := 2 },
        [127, 0, 0, 1, 0, 80]) :=
  C6_invalid_tag_is_rejected Address.zero 2 [127, 0, 0, 1, 0, 80] (by decide) (by decide)
    (by decide)

/-- C7, on the ports `70000` and `-1`: `NewAddressFromAddr` on
`example.com:70000` and on `example.com:-1` returns no error but an `Address`
with `Port` 70000 and -1, since the port is parsed as a signed 32-bit
number. -/
theorem C7_out_of_range_ports_are_accepted :
    NewAddressFromAddr [116, 99, 112]
        [101, 120, 97, 109, 112, 108, 101, 46, 99, 111, 109, 58, 55, 48, 48, 48, 48] =
      Except.ok { DomainName := [101, 120, 97, 109, 112, 108, 101, 46, 99, 111, 109],
                  Port := 70000, NetworkType := [116, 99, 112], IP := [],
                  AddressType := AddressType.DomainName } ∧
    NewAddressFromAddr [116, 99, 112]
        [101, 120, 97, 109, 112, 108, 101, 46, 99, 111, 109, 58, 45, 49] =
      Except.ok { DomainName := [101, 120, 97, 109, 112, 108, 101, 46, 99, 111, 109],
                  Port := -1, NetworkType := [116, 99, 112], IP := [],
                  AddressType := AddressType.DomainName } := by
  constructor <;> rfl

/-- C8 fails as stated: an `Address` with `AddressType` `IPv4` and no IP (as
a failed `ReadFrom` of the single byte `01` leaves it) is written as the three
bytes `01 00 50`, not as seven. -/
theorem C8_IPv4_tag_without_address_gives_three_bytes :
    ({ DomainName := [], Port := 80, NetworkType := [], IP := [],
       AddressType := AddressType.IPv4 } : Address).WriteTo bufferWriter [] = ([1, 0, 80], none) ∧
    (({ DomainName := [], Port := 80, NetworkType := [], IP := [],
        AddressType := AddressType.IPv4 } : Address).WriteTo bufferWriter []).1.length ≠ 7 ∧
    (Address.zero.ReadFrom [1]).2.1 =
      { DomainName := [], Port := 0, NetworkType := [], IP := [],
        AddressType := AddressType.IPv4 } := by
  decide

/-- C8 as amended, the wire layout on a writer that accepts every write:
for `IPv4` with a non-nil `IP.To4()` the calls write the tag 1, the 4 bytes of
`IP.To4()` and the 2 port bytes, 7 bytes in all; for `IPv6` with a non-nil
`IP.To16()` the tag 4, the 16 bytes of `IP.To16()` and the port, 19 bytes; for
`DomainName` the tag 3, one length byte (the length modulo 256), the name and
the port, `len(name) + 4` bytes. The port bytes are the big-endian form of
`uint16(Port)`. `WriteTo` returns `nil`. -/
theorem C8_wire_layout {σ : Type} (W : Writer σ) (hW : ∀ s p, (W.Write s p).2 = none) (w : σ)
    (a : Address) :
    (a.AddressType = AddressType.IPv4 → To4 a.IP ≠ [] →
      a.WriteTo W w =
        (W.writeAll w [[1], To4 a.IP, BigEndianPutUint16 (toUint16 a.Port)], none) ∧
      (To4 a.IP).length = 4 ∧
      ([1] ++ To4 a.IP ++ BigEndianPutUint16 (toUint16 a.Port)).length = 7) ∧
    (a.AddressType = AddressType.IPv6 → To16 a.IP ≠ [] →
      a.WriteTo W w =
        (W.writeAll w [[4], To16 a.IP, BigEndianPutUint16 (toUint16 a.Port)], none) ∧
      (To16 a.IP).length = 16 ∧
      ([4] ++ To16 a.IP ++ BigEndianPutUint16 (toUint16 a.Port)).length = 19) ∧
    (a.AddressType = AddressType.DomainName →
      a.WriteTo W w =
        (W.writeAll w [[3], [a.DomainName.length % 256], a.DomainName,
          BigEndianPutUint16 (toUint16 a.Port)], none) ∧
      ([3] ++ [a.DomainName.length % 256] ++ a.DomainName ++
        BigEndianPutUint16 (toUint16 a.Port)).length = a.DomainName.length + 4) := by
  have hw : ∀ s p, W.Write s p = ((W.Write s p).1, none) := fun s p =>
    Prod.ext rfl (hW s p)
  refine ⟨fun ht h4 => ⟨?_, To4_length _ h4, ?_⟩, fun ht h16 => ⟨?_, To16_length _ h16, ?_⟩,
    fun ht => ⟨?_, ?_⟩⟩
  · simp only [Address.WriteTo, Writer.writeAll, List.foldl, ht, AddressType.IPv4,
      AddressType.DomainName]
    rw [hw w]
    simp only [Nat.reduceMod, Nat.reduceEqDiff, if_false, if_true]
    rw [hw _ (To4 a.IP)]
    simp only
    rw [hw _ (BigEndianPutUint16 _)]
  · simp [To4_length _ h4, BigEndianPutUint16]
  · simp only [Address.WriteTo, Writer.writeAll, List.foldl, ht, AddressType.IPv4,
      AddressType.IPv6, AddressType.DomainName]
    rw [hw w]
    simp only [Nat.reduceMod, Nat.reduceEqDiff, if_false, if_true]
    rw [hw _ (To16 a.IP)]
    simp only
    rw [hw _ (BigEndianPutUint16 _)]
  · simp [To16_length _ h16, BigEndianPutUint16]
  · simp only [Address.WriteTo, Writer.writeAll, List.foldl, ht, AddressType.DomainName]
    rw [hw w]
    simp only [Nat.reduceMod, if_true]
    rw [hw _ a.DomainName]
    simp only
    rw [hw _ (BigEndianPutUint16 _)]
  · simp [BigEndianPutUint16]

/-- One address of each variant as an instance of the amended C8, on a
buffer. -/
theorem C8_witness :
    ({ DomainName := [], Port := 80, NetworkType := [], IP := [127, 0, 0, 1],
       AddressType := AddressType.IPv4 } : Address).WriteTo bufferWriter [] =
      ([1, 127, 0, 0, 1, 0, 80], none) ∧
    ({ DomainName := [], Port := 443, NetworkType := [],
       IP := [0, 0, 0, 0, 0, 0, 0, 0, 0, 0, 0, 0, 0, 0, 0, 1],
       AddressType := AddressType.IPv6 } : Address).WriteTo bufferWriter [] =
      ([4, 0, 0, 0, 0, 0, 0, 0, 0, 0, 0, 0, 0, 0, 0, 0, 1, 1, 187], none) ∧
    ({ DomainName := [97, 46, 105, 111], Port := 8080, NetworkType := [], IP := [],
       AddressType := AddressType.DomainName } : Address).WriteTo bufferWriter [] =
      ([3, 4, 97, 46, 105, 111, 31, 144], none) :=
  ⟨((C8_wire_layout bufferWriter (fun _ _ => rfl) []
      { DomainName := [], Port := 80, NetworkType := [], IP := [127, 0, 0, 1],
        AddressType := AddressType.IPv4 }).1 rfl (by decide)).1,
   ((C8_wire_layout bufferWriter (fun _ _ => rfl) []
      { DomainName := [], Port := 443, NetworkType := [],
        IP := [0, 0, 0, 0, 0, 0, 0, 0, 0, 0, 0, 0, 0, 0, 0, 1],
        AddressType := AddressType.IPv6 }).2.1 rfl (by decide)).1,
   ((C8_wire_layout bufferWriter (fun _ _ => rfl) []
      { DomainName := [97, 46, 105, 111], Port := 8080, NetworkType := [], IP := [],
        AddressType := AddressType.DomainName }).2.2 rfl).1⟩

/-- C9, on a writer whose second `Write` call fails: for a `DomainName`
address the failing call is the one of the length byte, whose result
`WriteTo` does not look at; `WriteTo` returns `nil`, and the writer holds a
frame without length byte. (The same error from the third call, the write of
the name, is returned.) -/
theorem C9_error_of_the_length_byte_write_is_dropped :
    ({ DomainName := [97, 98], Port := 443, NetworkType := [], IP := [],
       AddressType := AddressType.DomainName } : Address).WriteTo scriptWriter
        ([], [none, some (Error.stream 1)]) = (([3, 97, 98, 1, 187], []), none) ∧
    ({ DomainName := [97, 98], Port := 443, NetworkType := [], IP := [],
       AddressType := AddressType.DomainName } : Address).WriteTo scriptWriter
        ([], [none, none, some (Error.stream 1)]) = (([3, 2], []), some (Error.stream 1)) := by
  decide

/-- C10, on the answers `05 02` and `01 01` to a client with user name and
password on a plain scheme: `passwordAuth` reports `false` without error, and
`handshake` returns `nil`, because the error for `!passed` is assigned to the
`err` local to the case clause (the third fact) and not to the result. -/
theorem C10_handshake_succeeds_on_rejected_credentials :
    Socks5Client.isTLS
        { Scheme := [115, 111, 99, 107, 115, 53],
          User := some { username := [117, 115, 101, 114], password := [112, 97, 115, 115] } } =
      false ∧
    Socks5Client.passwordAuth scriptConn
        { Scheme := [115, 111, 99, 107, 115, 53],
          User := some { username := [117, 115, 101, 114], password := [112, 97, 115, 115] } }
        { incoming := [[1, 1]], written := [[5, 1, 2]] } =
      (false, none,
        { incoming := [],
          written := [[5, 1, 2], [1, 4, 117, 115, 101, 114, 4, 112, 97, 115, 115]] }) ∧
    (Socks5Client.handshakePasswordCase scriptConn
        { Scheme := [115, 111, 99, 107, 115, 53],
          User := some { username := [117, 115, 101, 114], password := [112, 97, 115, 115] } }
        { incoming := [[1, 1]], written := [[5, 1, 2]] } none).2.1 =
      some Error.passwordAuthenticationFailed ∧
    Socks5Client.handshake scriptConn
        { Scheme := [115, 111, 99, 107, 115, 53],
          User := some { username := [117, 115, 101, 114], password := [112, 97, 115, 115] } }
        { incoming := [[5, 2], [1, 1]], written := [] } =
      (none,
        { incoming := [],
          written := [[5, 1, 2], [1, 4, 117, 115, 101, 114, 4, 112, 97, 115, 115]] }) := by
  decide

/-- C11, negotiation without credentials on a plain scheme: for every answer
`v m` of the server, whether it comes in one segment or in two, `handshake`
returns `nil` exactly when `v` is 0x05 and `m` is 0x00, the version error
when `v` is not 0x05, and the method-negotiation error when `v` is 0x05 and
`m` is not 0x00; in every case the one thing written is the initial request
`05 01 00`. -/
theorem C11_no_auth_negotiation (c : Socks5Client) (hT : c.isTLS = false)
    (hU : c.User = none ∨ c.Username = []) (v m : Nat) (more written : List (List Nat)) :
    Socks5Client.handshake scriptConn c { incoming := [v, m] :: more, written := written } =
      (if v ≠ 0x05 then some Error.versionError
       else if m ≠ 0x00 then some Error.methodNegotiationFailed
       else none,
       { incoming := more, written := written ++ [[0x05, 1, 0x00]] }) ∧
    Socks5Client.handshake scriptConn c
        { incoming := [v] :: [m] :: more, written := written } =
      (if v ≠ 0x05 then some Error.versionError
       else if m ≠ 0x00 then some Error.methodNegotiationFailed
       else none,
       { incoming := if v ≠ 0x05 then [m] :: more else more,
         written := written ++ [[0x05, 1, 0x00]] }) ∧
    ((Socks5Client.handshake scriptConn c
        { incoming := [v, m] :: more, written := written }).1 = none ↔ v = 0x05 ∧ m = 0x00) := by
  have hm : ¬ (c.User ≠ none ∧ c.Username ≠ []) := by
    rcases hU with h | h <;> simp [h]
  by_cases hv : v = 5
  · by_cases h0 : m = 0
    · simp [Socks5Client.handshake, hT, hm, Reader.ReadByte, Reader.fill, NewReader, scriptConn,
        socks5AuthMethodPassword, socks5AuthMethodNoRequired, socks5version,
        socks5InitialRequestToPacket, hv, h0]
    · simp [Socks5Client.handshake, hT, hm, Reader.ReadByte, Reader.fill, NewReader, scriptConn,
        socks5AuthMethodPassword, socks5AuthMethodNoRequired, socks5version,
        socks5InitialRequestToPacket, hv, h0]
  · simp [Socks5Client.handshake, hT, hm, Reader.ReadByte, Reader.fill, NewReader, scriptConn,
      socks5AuthMethodPassword, socks5AuthMethodNoRequired, socks5version,
      socks5InitialRequestToPacket, hv]

/-- The answers `05 02` and `05 00` to a client without user as instances of
C11: the first fails with the method-negotiation error, the second succeeds. -/
theorem C11_witness :
    Socks5Client.handshake scriptConn { Scheme := [115, 111, 99, 107, 115, 53], User := none }
        { incoming := [[5, 2]], written := [] } =
      (some Error.methodNegotiationFailed, { incoming := [], written := [[5, 1, 0]] }) ∧
    Socks5Client.handshake scriptConn { Scheme := [115, 111, 99, 107, 115, 53], User := none }
        { incoming := [[5, 0]], written := [] } =
      (none, { incoming := [], written := [[5, 1, 0]] }) :=
  ⟨(C11_no_auth_negotiation { Scheme := [115, 111, 99, 107, 115, 53], User := none } (by decide)
      (Or.inl rfl) 5 2 [] []).1,
   (C11_no_auth_negotiation { Scheme := [115, 111, 99, 107, 115, 53], User := none } (by decide)
      (Or.inl rfl) 5 0 [] []).1⟩

/-- C12 fails as stated: the network `TCP`, which is none of `tcp`, `tcp4` and
`tcp6`, is mapped to CONNECT and not rejected, and `Udp6` is mapped to UDP
ASSOCIATE: the network is put in lower case before it is compared. -/
theorem C12_upper_case_network_maps_to_CONNECT :
    Socks5Client.commandByNetwork { Scheme := [], User := none } [84, 67, 80] =
      Except.ok commandConnect ∧
    ([84, 67, 80] : List Nat) ≠ [116, 99, 112] ∧ ([84, 67, 80] : List Nat) ≠ [116, 99, 112, 52] ∧
    ([84, 67, 80] : List Nat) ≠ [116, 99, 112, 54] ∧
    Socks5Client.commandByNetwork { Scheme := [], User := none } [85, 100, 112, 54] =
      Except.ok commandUDPAssociate :=
  ⟨rfl, by decide, by decide, by decide, rfl⟩

/-- C12 as amended: `commandByNetwork` returns CONNECT exactly when the
network in lower case is `tcp`, `tcp4` or `tcp6`, UDP ASSOCIATE exactly when
it is `udp`, `udp4` or `udp6` in lower case, and the unsupported-command
error exactly when it is none of the six; the six names themselves map to
0x01 and 0x03, and `sctp` fails. -/
theorem C12_network_to_command (c : Socks5Client) (network : List Nat) :
    (c.commandByNetwork network = Except.ok commandConnect ↔
      (ToLower network = [116, 99, 112] ∨ ToLower network = [116, 99, 112, 52] ∨
        ToLower network = [116, 99, 112, 54])) ∧
    (c.commandByNetwork network = Except.ok commandUDPAssociate ↔
      (ToLower network = [117, 100, 112] ∨ ToLower network = [117, 100, 112, 52] ∨
        ToLower network = [117, 100, 112, 54])) ∧
    (c.commandByNetwork network = Except.error Error.commandNotSupported ↔
      ¬ (ToLower network = [116, 99, 112] ∨ ToLower network = [116, 99, 112, 52] ∨
        ToLower network = [116, 99, 112, 54]) ∧
      ¬ (ToLower network = [117, 100, 112] ∨ ToLower network = [117, 100, 112, 52] ∨
        ToLower network = [117, 100, 112, 54])) ∧
    c.commandByNetwork [116, 99, 112] = Except.ok 0x01 ∧
    c.commandByNetwork [116, 99, 112, 52] = Except.ok 0x01 ∧
    c.commandByNetwork [116, 99, 112, 54] = Except.ok 0x01 ∧
    c.commandByNetwork [117, 100, 112] = Except.ok 0x03 ∧
    c.commandByNetwork [117, 100, 112, 52] = Except.ok 0x03 ∧
    c.commandByNetwork [117, 100, 112, 54] = Except.ok 0x03 ∧
    c.commandByNetwork [115, 99, 116, 112] = Except.error Error.commandNotSupported := by
  refine ⟨?_, ?_, ?_, rfl, rfl, rfl, rfl, rfl, rfl, rfl⟩
  · simp only [Socks5Client.commandByNetwork]
    by_cases h1 : ToLower network = [116, 99, 112] ∨ ToLower network = [116, 99, 112, 52] ∨
        ToLower network = [116, 99, 112, 54]
    · simp [h1]
    · by_cases h2 : ToLower network = [117, 100, 112] ∨ ToLower network = [117, 100, 112, 52] ∨
          ToLower network = [117, 100, 112, 54]
      · simp [h1, h2, commandConnect, commandUDPAssociate]
      · simp [h1, h2]
  · simp only [Socks5Client.commandByNetwork]
    by_cases h1 : ToLower network = [116, 99, 112] ∨ ToLower network = [116, 99, 112, 52] ∨
        ToLower network = [116, 99, 112, 54]
    · have h2 : ¬ (ToLower network = [117, 100, 112] ∨ ToLower network = [117, 100, 112, 52] ∨
          ToLower network = [117, 100, 112, 54]) := by
        rcases h1 with h | h | h <;> simp [h]
      simp [h1, h2, commandConnect, commandUDPAssociate]
    · by_cases h2 : ToLower network = [117, 100, 112] ∨ ToLower network = [117, 100, 112, 52] ∨
          ToLower network = [117, 100, 112, 54]
      · simp [h1, h2]
      · simp [h1, h2]
  · simp only [Socks5Client.commandByNetwork]
    by_cases h1 : ToLower network = [116, 99, 112] ∨ ToLower network = [116, 99, 112, 52] ∨
        ToLower network = [116, 99, 112, 54]
    · simp [h1]
    · by_cases h2 : ToLower network = [117, 100, 112] ∨ ToLower network = [117, 100, 112, 52] ∨
          ToLower network = [117, 100, 112, 54]
      · simp [h1, h2]
      · simp [h1, h2]

/-- C13, on three runs of `Dial` to `example.com:80` that open the transport
and fail: when the server answers the negotiation with version 4, `Dial`
returns the version error and the transport is not closed; when the CONNECT
reply has the status byte 0x01, `Dial` returns the connect error and the
transport is not closed; only when the TLS handshake fails is the transport
closed. (The last component counts the calls of the dialer.) -/
theorem C13_transport_left_open_on_failure :
    Socks5Client.Dial transportOps (scriptOutside [[4, 0]] none)
        { Scheme := [115, 111, 99, 107, 115, 53], User := none } 0 [116, 99, 112]
        [101, 120, 97, 109, 112, 108, 101, 46, 99, 111, 109, 58, 56, 48] =
      (some { conn := { incoming := [], written := [[5, 1, 0]] }, closed := false },
       some Error.versionError, 1) ∧
    Socks5Client.Dial transportOps
        (scriptOutside [[5, 0], [5, 1, 0, 1, 127, 0, 0, 1, 0, 80]] none)
        { Scheme := [115, 111, 99, 107, 115, 53], User := none } 0 [116, 99, 112]
        [101, 120, 97, 109, 112, 108, 101, 46, 99, 111, 109, 58, 56, 48] =
      (some { conn := { incoming := [],
                        written := [[5, 1, 0],
                          [5, 1, 0, 3, 11, 101, 120, 97, 109, 112, 108, 101, 46, 99, 111, 109,
                            0, 80]] },
              closed := false },
       some Error.connectFailed, 1) ∧
    Socks5Client.Dial transportOps (scriptOutside [[5, 0]] (some Error.tlsHandshake))
        { Scheme := [115, 111, 99, 107, 115, 53, 43, 116, 108, 115], User := none } 0
        [116, 99, 112] [101, 120, 97, 109, 112, 108, 101, 46, 99, 111, 109, 58, 56, 48] =
      (some { conn := { incoming := [[5, 0]], written := [] }, closed := true },
       some Error.tlsHandshake, 1) := by
  decide

/-- C14, the CONNECT reply: on a reply of at least three bytes `v s r rest`
(one segment, of which one `Read` takes up to 4096 bytes) `handleConnect`
returns the version error if `v` is not 0x05, whatever `s` is; the connect
error if `v` is 0x05 and `s` is not 0x00, without a call of the address
decoder; and otherwise what the address decoder returns on the bytes after
`r`, whatever `r` is. On a reply that ends before the third byte it returns an
error. So it succeeds exactly on 0x05, 0x00, any byte, and bytes the decoder
accepts. -/
theorem C14_CONNECT_reply {δ : Type} (O : Outside ScriptConn δ) (c : Socks5Client)
    (v s r : Nat) (rest : List Nat) (more written : List (List Nat)) :
    c.handleConnect scriptConn O
        { incoming := (v :: s :: r :: rest) :: more, written := written } =
      (if v ≠ 0x05 then some Error.versionError
       else if s ≠ 0x00 then some Error.connectFailed
       else (O.readSocks5Addr { buf := rest.take 4093, err := none }
              { incoming := if rest.length + 3 ≤ 4096 then more else rest.drop 4093 :: more,
                written := written }).1,
       if v ≠ 0x05 ∨ s ≠ 0x00 then
         { incoming := if rest.length + 3 ≤ 4096 then more else rest.drop 4093 :: more,
           written := written }
       else (O.readSocks5Addr { buf := rest.take 4093, err := none }
              { incoming := if rest.length + 3 ≤ 4096 then more else rest.drop 4093 :: more,
                written := written }).2.2) ∧
    (c.handleConnect scriptConn O { incoming := [], written := written }).1 = some Error.eof ∧
    (c.handleConnect scriptConn O { incoming := [[v]], written := written }).1 =
      (if v ≠ 0x05 then some Error.versionError else some Error.eof) ∧
    (c.handleConnect scriptConn O { incoming := [[v, s]], written := written }).1 =
      (if v ≠ 0x05 then some Error.versionError
       else if s ≠ 0x00 then some Error.connectFailed else some Error.eof) := by
  refine ⟨?_, ?_, ?_, ?_⟩
  · have hf := fill_scriptConn_cons v (s :: r :: rest) more written
    have hd : (v :: s :: r :: rest).drop 4096 = rest.drop 4093 := rfl
    rw [hd] at hf
    by_cases hlen : rest.length + 3 ≤ 4096
    · have hlen2 : rest.length + 1 + 1 + 1 ≤ 4096 := by omega
      simp only [List.length_cons, hlen2, if_true] at hf
      simp only [Socks5Client.handleConnect, Reader.ReadByte, NewReader, hf, socks5version, hlen,
        if_true]
      by_cases hv : v = 5
      · by_cases hs : s = 0
        · simp only [hv, hs, Reader.Discard, Reader.discardLoop]
          simp
          split <;> simp_all
        · simp [hv, hs]
      · simp [hv]
    · have hlen2 : ¬ rest.length + 1 + 1 + 1 ≤ 4096 := by omega
      simp only [List.length_cons, hlen2, if_false] at hf
      simp only [Socks5Client.handleConnect, Reader.ReadByte, NewReader, hf, socks5version, hlen,
        if_false]
      by_cases hv : v = 5
      · by_cases hs : s = 0
        · simp only [hv, hs, Reader.Discard, Reader.discardLoop]
          simp
          split <;> simp_all
        · simp [hv, hs]
      · simp [hv]
  · simp [Socks5Client.handleConnect, Reader.ReadByte, NewReader, fill_scriptConn_nil]
  · by_cases hv : v = 5
    · simp [Socks5Client.handleConnect, Reader.ReadByte, NewReader, fill_scriptConn_cons,
        fill_scriptConn_nil, socks5version, hv]
    · simp [Socks5Client.handleConnect, Reader.ReadByte, NewReader, fill_scriptConn_cons,
        socks5version, hv]
  · by_cases hv : v = 5
    · by_cases hs : s = 0
      · simp [Socks5Client.handleConnect, Reader.ReadByte, NewReader, fill_scriptConn_cons,
          fill_scriptConn_nil, socks5version, hv, hs, Reader.Discard, Reader.discardLoop]
      · simp [Socks5Client.handleConnect, Reader.ReadByte, NewReader, fill_scriptConn_cons,
          socks5version, hv, hs]
    · simp [Socks5Client.handleConnect, Reader.ReadByte, NewReader, fill_scriptConn_cons,
        socks5version, hv]

/-- C15, the offered method: on every scripted connection the first thing
`handshake` writes is the request `05 01 code` with one method, whose code
is 0x02 if `c.proxy.User` is non-nil with a non-empty user name and 0x00
otherwise, plus 0x80 if the scheme in upper case is `SOCKS5+TLS`; the code is
one of 0x00, 0x02, 0x80, 0x82. -/
theorem C15_offered_method (c : Socks5Client) (conn : ScriptConn) :
    ∃ code tail, (Socks5Client.handshake scriptConn c conn).2.written =
        conn.written ++ [[0x05, 1, code]] ++ tail ∧
      code = (if c.User ≠ none ∧ c.Username ≠ [] then 0x02 else 0x00) +
        (if ToUpper c.Scheme = [83, 79, 67, 75, 83, 53, 43, 84, 76, 83] then 0x80 else 0x00) ∧
      (code = 0x00 ∨ code = 0x02 ∨ code = 0x80 ∨ code = 0x82) := by
  obtain ⟨tail, h⟩ := handshake_scriptConn_written c conn
  refine ⟨_, tail, ?_, rfl, ?_⟩
  · rw [h]
    by_cases h1 : ToUpper c.Scheme = [83, 79, 67, 75, 83, 53, 43, 84, 76, 83] <;>
      by_cases h2 : c.User ≠ none ∧ c.Username ≠ [] <;>
      simp [Socks5Client.isTLS, h1, h2, socks5AuthMethodPassword, socks5AuthMethodNoRequired,
        socks5InitialRequestToPacket, socks5version]
  · by_cases h1 : ToUpper c.Scheme = [83, 79, 67, 75, 83, 53, 43, 84, 76, 83] <;>
      by_cases h2 : c.User ≠ none ∧ c.Username ≠ [] <;>
      simp [h1, h2]

/-- Six clients as instances of C15: `socks5` without and with user offers
0x00 and 0x02, `socks5+tls` without user and `SOCKS5+TLS` with user offer 0x80
and 0x82, the scheme with U+017F for the first `s` offers 0x80 as well, and a
user with an empty name and a password offers 0x00. -/
theorem C15_witness :
    (∃ tail, (Socks5Client.handshake scriptConn
        { Scheme := [115, 111, 99, 107, 115, 53], User := none }
        { incoming := [[5, 0]], written := [] }).2.written = [[5, 1, 0x00]] ++ tail) ∧
    (∃ tail, (Socks5Client.handshake scriptConn
        { Scheme := [115, 111, 99, 107, 115, 53],
          User := some { username := [117, 115, 101, 114], password := [112, 97, 115, 115] } }
        { incoming := [[5, 2], [1, 0]], written := [] }).2.written = [[5, 1, 0x02]] ++ tail) ∧
    (∃ tail, (Socks5Client.handshake scriptConn
        { Scheme := [115, 111, 99, 107, 115, 53, 43, 116, 108, 115], User := none }
        { incoming := [[5, 0]], written := [] }).2.written = [[5, 1, 0x80]] ++ tail) ∧
    (∃ tail, (Socks5Client.handshake scriptConn
        { Scheme := [83, 79, 67, 75, 83, 53, 43, 84, 76, 83],
          User := some { username := [117, 115, 101, 114], password := [112, 97, 115, 115] } }
        { incoming := [[5, 2]], written := [] }).2.written = [[5, 1, 0x82]] ++ tail) ∧
    (∃ tail, (Socks5Client.handshake scriptConn
        { Scheme := [0xC5, 0xBF, 111, 99, 107, 115, 53, 43, 116, 108, 115], User := none }
        { incoming := [[5, 0]], written := [] }).2.written = [[5, 1, 0x80]] ++ tail) ∧
    (∃ tail, (Socks5Client.handshake scriptConn
        { Scheme := [115, 111, 99, 107, 115, 53],
          User := some { username := [], password := [112, 97, 115, 115] } }
        { incoming := [[5, 0]], written := [] }).2.written = [[5, 1, 0x00]] ++ tail) := by
  refine ⟨?_, ?_, ?_, ?_, ?_, ?_⟩
  · obtain ⟨code, tail, h, hc, -⟩ := C15_offered_method
      { Scheme := [115, 111, 99, 107, 115, 53], User := none }
      { incoming := [[5, 0]], written := [] }
    exact ⟨tail, by rw [h, hc]; rfl⟩
  · obtain ⟨code, tail, h, hc, -⟩ := C15_offered_method
      { Scheme := [115, 111, 99, 107, 115, 53],
        User := some { username := [117, 115, 101, 114], password := [112, 97, 115, 115] } }
      { incoming := [[5, 2], [1, 0]], written := [] }
    exact ⟨tail, by rw [h, hc]; rfl⟩
  · obtain ⟨code, tail, h, hc, -⟩ := C15_offered_method
      { Scheme := [115, 111, 99, 107, 115, 53, 43, 116, 108, 115], User := none }
      { incoming := [[5, 0]], written := [] }
    exact ⟨tail, by rw [h, hc]; rfl⟩
  · obtain ⟨code, tail, h, hc, -⟩ := C15_offered_method
      { Scheme := [83, 79, 67, 75, 83, 53, 43, 84, 76, 83],
        User := some { username := [117, 115, 101, 114], password := [112, 97, 115, 115] } }
      { incoming := [[5, 2]], written := [] }
    exact ⟨tail, by rw [h, hc]; rfl⟩
  · obtain ⟨code, tail, h, hc, -⟩ := C15_offered_method
      { Scheme := [0xC5, 0xBF, 111, 99, 107, 115, 53, 43, 116, 108, 115], User := none }
      { incoming := [[5, 0]], written := [] }
    exact ⟨tail, by rw [h, hc]; rfl⟩
  · obtain ⟨code, tail, h, hc, -⟩ := C15_offered_method
      { Scheme := [115, 111, 99, 107, 115, 53],
        User := some { username := [], password := [112, 97, 115, 115] } }
      { incoming := [[5, 0]], written := [] }
    exact ⟨tail, by rw [h, hc]; rfl⟩

set_option maxRecDepth 100000 in
/-- C16, on the destination made of a host of 256 bytes `a` and the port 80:
the destination splits into that host and the port, `Dial` goes through, and
the request it writes after the initial request carries the length byte 0,
not `len(host)`, before the 256 bytes of the host. -/
theorem C16_length_byte_of_a_256_byte_host_is_zero :
    splitHostPort (List.replicate 256 97 ++ [58, 56, 48]) =
      Except.ok (List.replicate 256 97, 80) ∧
    (List.replicate 256 97).length = 256 ∧
    Socks5Client.Dial transportOps
        (scriptOutside [[5, 0], [5, 0, 0, 1, 127, 0, 0, 1, 0, 80]] none)
        { Scheme := [115, 111, 99, 107, 115, 53], User := none } 0 [116, 99, 112]
        (List.replicate 256 97 ++ [58, 56, 48]) =
      (some { conn := { incoming := [],
                        written := [[5, 1, 0],
                          [5, 1, 0, 3, 0] ++ List.replicate 256 97 ++ [0, 80]] },
              closed := false },
       none, 1) := by
  refine ⟨rfl, ?_, ?_⟩
  · simp only [List.length_replicate]
  · decide

/-- C17, the UDP ASSOCIATE reply: on a reply of at least three bytes
`b0 b1 b2 rest` (one segment, of which one `Read` takes up to 4096 bytes)
`handleUDPAssociate` returns what the address decoder returns on the bytes
after the third, whatever the three bytes are; on a reply of fewer than
three bytes it returns an error. -/
theorem C17_UDP_ASSOCIATE_reply {δ : Type} (O : Outside ScriptConn δ) (c : Socks5Client)
    (b0 b1 b2 : Nat) (rest : List Nat) (more written : List (List Nat)) :
    c.handleUDPAssociate scriptConn O
        { incoming := (b0 :: b1 :: b2 :: rest) :: more, written := written } =
      ((O.readSocks5Addr { buf := rest.take 4093, err := none }
          { incoming := if rest.length + 3 ≤ 4096 then more else rest.drop 4093 :: more,
            written := written }).1,
       (O.readSocks5Addr { buf := rest.take 4093, err := none }
          { incoming := if rest.length + 3 ≤ 4096 then more else rest.drop 4093 :: more,
            written := written }).2.2) ∧
    (c.handleUDPAssociate scriptConn O { incoming := [], written := written }).1 =
      some Error.eof ∧
    (c.handleUDPAssociate scriptConn O { incoming := [[b0]], written := written }).1 =
      some Error.eof ∧
    (c.handleUDPAssociate scriptConn O { incoming := [[b0, b1]], written := written }).1 =
      some Error.eof := by
  refine ⟨?_, ?_, ?_, ?_⟩
  · have hf := fill_scriptConn_cons b0 (b1 :: b2 :: rest) more written
    have hd : (b0 :: b1 :: b2 :: rest).drop 4096 = rest.drop 4093 := rfl
    rw [hd] at hf
    by_cases hlen : rest.length + 3 ≤ 4096
    · have hlen2 : rest.length + 1 + 1 + 1 ≤ 4096 := by omega
      simp only [List.length_cons, hlen2, if_true] at hf
      simp only [Socks5Client.handleUDPAssociate, Reader.Discard, Reader.discardLoop, NewReader,
        hf, hlen, if_true]
      simp
      split <;> simp_all
    · have hlen2 : ¬ rest.length + 1 + 1 + 1 ≤ 4096 := by omega
      simp only [List.length_cons, hlen2, if_false] at hf
      simp only [Socks5Client.handleUDPAssociate, Reader.Discard, Reader.discardLoop, NewReader,
        hf, hlen, if_false]
      simp
      split <;> simp_all
  · simp [Socks5Client.handleUDPAssociate, Reader.Discard, Reader.discardLoop, NewReader,
      fill_scriptConn_nil]
  · simp [Socks5Client.handleUDPAssociate, Reader.Discard, Reader.discardLoop, NewReader,
      fill_scriptConn_cons, fill_scriptConn_nil]
  · simp [Socks5Client.handleUDPAssociate, Reader.Discard, Reader.discardLoop, NewReader,
      fill_scriptConn_cons, fill_scriptConn_nil]

/-- C18, the TLS-carrying scheme: for every client whose scheme is
`SOCKS5+TLS`, with or without user, and every answer `05 m`, `handshake`
returns `nil` and has written the initial request `05 01 80` or `05 01 82`
and nothing else, so no user name and password were sent. -/
theorem C18_tls_outcome_independent_of_method (c : Socks5Client) (hT : c.isTLS = true) (m : Nat)
    (more written : List (List Nat)) :
    Socks5Client.handshake scriptConn c { incoming := [0x05, m] :: more, written := written } =
      (none,
       { incoming := more,
         written := written ++
           [[0x05, 1, if c.User ≠ none ∧ c.Username ≠ [] then 0x82 else 0x80]] }) := by
  by_cases hm : c.User ≠ none ∧ c.Username ≠ []
  · simp [Socks5Client.handshake, hT, hm, Reader.ReadByte, Reader.fill, NewReader, scriptConn,
      socks5AuthMethodPassword, socks5AuthMethodNoRequired, socks5version,
      socks5InitialRequestToPacket]
  · simp [Socks5Client.handshake, hT, hm, Reader.ReadByte, Reader.fill, NewReader, scriptConn,
      socks5AuthMethodPassword, socks5AuthMethodNoRequired, socks5version,
      socks5InitialRequestToPacket]

/-- The scheme `socks5+tls` with a user and the answers `05 02` and `05 FF`
as instances of C18. -/
theorem C18_witness :
    Socks5Client.handshake scriptConn
        { Scheme := [115, 111, 99, 107, 115, 53, 43, 116, 108, 115],
          User := some { username := [117, 115, 101, 114], password := [112, 97, 115, 115] } }
        { incoming := [[5, 2]], written := [] } =
      (none, { incoming := [], written := [[5, 1, 0x82]] }) ∧
    Socks5Client.handshake scriptConn
        { Scheme := [115, 111, 99, 107, 115, 53, 43, 116, 108, 115],
          User := some { username := [117, 115, 101, 114], password := [112, 97, 115, 115] } }
        { incoming := [[5, 255]], written := [] } =
      (none, { incoming := [], written := [[5, 1, 0x82]] }) :=
  ⟨C18_tls_outcome_independent_of_method
      { Scheme := [115, 111, 99, 107, 115, 53, 43, 116, 108, 115],
        User := some { username := [117, 115, 101, 114], password := [112, 97, 115, 115] } }
      (by decide) 2 [] [],
   C18_tls_outcome_independent_of_method
      { Scheme := [115, 111, 99, 107, 115, 53, 43, 116, 108, 115],
        User := some { username := [117, 115, 101, 114], password := [112, 97, 115, 115] } }
      (by decide) 255 [] []⟩

/-- C19, no transport for an unusable request: for every connection type,
every dialer and every other collaborator, if the destination does not split
into host and port, or it does and the network has no command, `Dial` returns
the error of that step with a `nil` connection and the dialer in the state it
had before the call: it was not invoked. -/
theorem C19_no_transport_for_unusable_request {σ δ : Type} (C : ConnOps σ) (O : Outside σ δ)
    (c : Socks5Client) (d : δ) (network address : List Nat) (e : Error)
    (h : O.splitHostPort address = Except.error e ∨
      ((∃ hp, O.splitHostPort address = Except.ok hp) ∧
        c.commandByNetwork network = Except.error e)) :
    c.Dial C O d network address = (none, some e, d) := by
  rcases h with h | ⟨⟨hp, h1⟩, h2⟩
  · simp [Socks5Client.Dial, h]
  · simp [Socks5Client.Dial, h1, h2]

/-- The destination `nocolon` and the network `sctp` as instances of C19, with
a dialer that counts its calls: the count stays 0. -/
theorem C19_witness :
    Socks5Client.Dial transportOps (scriptOutside [[5, 0]] none)
        { Scheme := [115, 111, 99, 107, 115, 53], User := none } 0 [116, 99, 112]
        [110, 111, 99, 111, 108, 111, 110] = (none, some Error.invalidAddress, 0) ∧
    Socks5Client.Dial transportOps (scriptOutside [[5, 0]] none)
        { Scheme := [115, 111, 99, 107, 115, 53], User := none } 0 [115, 99, 116, 112]
        [101, 120, 97, 109, 112, 108, 101, 46, 99, 111, 109, 58, 56, 48] =
      (none, some Error.commandNotSupported, 0) :=
  ⟨C19_no_transport_for_unusable_request transportOps (scriptOutside [[5, 0]] none)
      { Scheme := [115, 111, 99, 107, 115, 53], User := none } 0 [116, 99, 112]
      [110, 111, 99, 111, 108, 111, 110] Error.invalidAddress (Or.inl rfl),
   C19_no_transport_for_unusable_request transportOps (scriptOutside [[5, 0]] none)
      { Scheme := [115, 111, 99, 107, 115, 53], User := none } 0 [115, 99, 116, 112]
      [101, 120, 97, 109, 112, 108, 101, 46, 99, 111, 109, 58, 56, 48]
      Error.commandNotSupported (Or.inr ⟨⟨_, rfl⟩, rfl⟩)⟩

/-- C20, a successful decode: whenever `ReadFrom` returns `nil` on an input
of bytes, the input is one frame followed by the bytes left unread; the frame
has 7 bytes after the tag 0x01, 19 after the tag 0x04 and `L + 4` after the
tag 0x03 with the length byte `L`; and `Port` is `256 * hi + lo` for the last
two bytes `hi lo` of the frame, a value from 0 to 65535. -/
theorem C20_successful_decode_consumes_one_frame (a a1 : Address) (r rest : List Nat)
    (hb : ∀ b ∈ r, b < 256) (h : a.ReadFrom r = (ReadOutcome.ok, a1, rest)) :
    ∃ (body : List Nat) (hi lo : Nat), r = body ++ [hi, lo] ++ rest ∧
      ((r.head? = some 0x01 ∧ (body ++ [hi, lo]).length = 7) ∨
       (r.head? = some 0x04 ∧ (body ++ [hi, lo]).length = 19) ∨
       (r.head? = some 0x03 ∧ (body ++ [hi, lo]).length = r.getD 1 0 + 4)) ∧
      a1.Port = 256 * (hi : Int) + (lo : Int) ∧ 0 ≤ a1.Port ∧ a1.Port ≤ 65535 := by
  have hport : ∀ (hi lo : Nat), hi ∈ r → lo ∈ r → ∀ p : Int,
      p = ((hi * 256 + lo : Nat) : Int) → p = 256 * (hi : Int) + (lo : Int) ∧ 0 ≤ p ∧ p ≤ 65535 := by
    intro hi lo h1 h2 p hp
    have := hb hi h1
    have := hb lo h2
    subst hp
    push_cast
    omega
  cases r with
  | nil => simp [Address.ReadFrom, readFull] at h
  | cons t r1 =>
    simp only [Address.ReadFrom, readFull_one, List.getD_cons_zero, AddressType.IPv4,
      AddressType.IPv6, AddressType.DomainName] at h
    by_cases h1 : t = 1
    · simp only [h1, if_true] at h
      cases h6 : readFull r1 6 with
      | none => rw [h6] at h; simp at h
      | some pq =>
        obtain ⟨p, q⟩ := pq
        obtain ⟨hr, hl⟩ := readFull_some _ _ _ _ h6
        simp only [h6, Prod.mk.injEq, true_and] at h
        obtain ⟨ha, hq⟩ := h
        obtain ⟨body, hi, lo, hp, hbl, h4, h5, -⟩ := split_last_two_ex 4 p hl
        rw [h4, h5] at ha
        refine ⟨1 :: body, hi, lo, ?_, ?_, ?_⟩
        · rw [h1, hr, hp, hq]; simp
        · left; rw [h1]; simp [hbl]
        · exact hport hi lo (by rw [hr, hp]; simp) (by rw [hr, hp]; simp) _ (by rw [← ha])
    · by_cases h4 : t = 4
      · simp only [h4, Nat.reduceEqDiff, if_false, if_true] at h
        cases h18 : readFull r1 18 with
        | none => rw [h18] at h; simp at h
        | some pq =>
          obtain ⟨p, q⟩ := pq
          obtain ⟨hr, hl⟩ := readFull_some _ _ _ _ h18
          simp only [h18, Prod.mk.injEq, true_and] at h
          obtain ⟨ha, hq⟩ := h
          obtain ⟨body, hi, lo, hp, hbl, h16, h17, -⟩ := split_last_two_ex 16 p hl
          rw [h16, h17] at ha
          refine ⟨4 :: body, hi, lo, ?_, ?_, ?_⟩
          · rw [h4, hr, hp, hq]; simp
          · right; left; rw [h4]; simp [hbl]
          · exact hport hi lo (by rw [hr, hp]; simp) (by rw [hr, hp]; simp) _ (by rw [← ha])
      · by_cases h3 : t = 3
        · simp only [h3, Nat.reduceEqDiff, if_false, if_true] at h
          cases hl1 : readFull r1 1 with
          | none => rw [hl1] at h; simp at h
          | some pq =>
            obtain ⟨p1, q1⟩ := pq
            obtain ⟨hr1, hp1⟩ := readFull_some _ _ _ _ hl1
            simp only [hl1] at h
            cases hb2 : readFull q1 ((p1.getD 0 0 + 2) % 256) with
            | none => rw [hb2] at h; simp at h
            | some pq2 =>
              obtain ⟨buf, q2⟩ := pq2
              obtain ⟨hr2, hbl⟩ := readFull_some _ _ _ _ hb2
              simp only [hb2, Prod.mk.injEq] at h
              obtain ⟨ho, ha, hq⟩ := h
              match p1, hp1 with
              | [L], _ =>
                simp only [List.getD_cons_zero] at ho ha hbl
                obtain ⟨hlen, hp⟩ := readDomainBody_ok _ a1 L buf hbl (Prod.ext ho ha)
                obtain ⟨body, hi, lo, hbuf, hbodyl, hL0, hL1, -⟩ := split_last_two_ex L buf hlen
                rw [hL0, hL1] at hp
                refine ⟨3 :: L :: body, hi, lo, ?_, ?_, ?_⟩
                · rw [h3, hr1, hr2, hbuf, hq]; simp
                · right; right; rw [h3, hr1]
                  simp [hbodyl]
                · exact hport hi lo (by rw [hr1, hr2, hbuf]; simp) (by rw [hr1, hr2, hbuf]; simp)
                    _ hp
        · simp [h1, h4, h3] at h

/-- An IPv4 frame followed by two more bytes as an instance of C20. -/
theorem C20_witness :
    Address.zero.ReadFrom [1, 127, 0, 0, 1, 0, 80, 9, 9] =
      (ReadOutcome.ok,
       { DomainName := [], Port := 80, NetworkType := [], IP := [127, 0, 0, 1],
         AddressType := AddressType.IPv4 }, [9, 9]) ∧
    ∃ (body : List Nat) (hi lo : Nat),
      ([1, 127, 0, 0, 1, 0, 80, 9, 9] : List Nat) = body ++ [hi, lo] ++ [9, 9] ∧
      ((([1, 127, 0, 0, 1, 0, 80, 9, 9] : List Nat).head? = some 0x01 ∧
          (body ++ [hi, lo]).length = 7) ∨
       (([1, 127, 0, 0, 1, 0, 80, 9, 9] : List Nat).head? = some 0x04 ∧
          (body ++ [hi, lo]).length = 19) ∨
       (([1, 127, 0, 0, 1, 0, 80, 9, 9] : List Nat).head? = some 0x03 ∧
          (body ++ [hi, lo]).length = ([1, 127, 0, 0, 1, 0, 80, 9, 9] : List Nat).getD 1 0 + 4)) ∧
      (80 : Int) = 256 * (hi : Int) + (lo : Int) ∧ (0 : Int) ≤ 80 ∧ (80 : Int) ≤ 65535 :=
  ⟨by decide,
   C20_successful_decode_consumes_one_frame Address.zero
     { DomainName := [], Port := 80, NetworkType := [], IP := [127, 0, 0, 1],
       AddressType := AddressType.IPv4 } [1, 127, 0, 0, 1, 0, 80, 9, 9] [9, 9] (by decide)
     (by decide)⟩

end Rem
